import Mathlib

/-!
Verification of the symbol-to-node transformation of giscanner/transformer.py
(gobject-introspection). The Python source is shallowly embedded: each method
of the Transformer class becomes a Lean function; in-place mutation of nodes,
option dictionaries and the transformer state is rendered as explicit value
passing; Python exceptions become an explicit error type threaded through
Except. Tables and small helpers imported by transformer.py from modules that
are external to the covered core (ast, utils, sourcescanner constants) are
modelled from the specification and are marked as such in their doc comments.
-/

set_option autoImplicit false

namespace GIScanner

/-- Errors raised by the transformer. SkipError, ValueError, KeyError,
IndexError, AssertionError and NotImplementedError of the Python source each
get a constructor; fuelExhausted is an artifact of bounding the recursion of
nested aggregate traversal (the source recursion is bounded by the input
term size). -/
inductive TransErr where
  | skip
  | valueError (msg : String)
  | keyError (msg : String)
  | indexError (msg : String)
  | assertionError (msg : String)
  | notImplemented (msg : String)
  | fuelExhausted
  deriving DecidableEq, Repr

/-- Kind tag of a C type descriptor (the CTYPE_* constants of sourcescanner). -/
inductive CTypeKind where
  | void
  | basic
  | typedefKind
  | array
  | pointer
  | func
  | structKind
  | unionKind
  | enumKind
  | invalid
  deriving DecidableEq, Repr

/-- Kind tag of a source symbol (the CSYMBOL_TYPE_* constants of
sourcescanner). -/
inductive CSymbolKind where
  | func
  | typedefKind
  | structKind
  | enumKind
  | objectKind
  | member
  | ellipsis
  | unionKind
  | constKind
  | invalid
  deriving DecidableEq, Repr

mutual
/-- A C type descriptor: kind tag, optional name, const qualifier on the type
itself, optional base type (pointee, array element, function result) and
child declarations (function parameters, aggregate members, enum values). -/
inductive SourceType where
  | mk (kind : CTypeKind) (name : Option String) (constQualified : Bool)
      (base : Option SourceType) (children : List SourceSymbol)

/-- A parsed C declaration: identifier, kind tag, type descriptor, the two
literal slots used by constants and enum members, and the documentation
directives attached to it (a map from name to the raw annotation strings). -/
inductive SourceSymbol where
  | mk (ident : String) (kind : CSymbolKind) (base : Option SourceType)
      (constInt : Int) (constString : Option String)
      (directives : List (String × List String))
end

def SourceType.kind : SourceType → CTypeKind
  | .mk k _ _ _ _ => k

def SourceType.name : SourceType → Option String
  | .mk _ n _ _ _ => n

def SourceType.constQualified : SourceType → Bool
  | .mk _ _ c _ _ => c

def SourceType.base : SourceType → Option SourceType
  | .mk _ _ _ b _ => b

def SourceType.children : SourceType → List SourceSymbol
  | .mk _ _ _ _ c => c

def SourceSymbol.ident : SourceSymbol → String
  | .mk i _ _ _ _ _ => i

def SourceSymbol.kind : SourceSymbol → CSymbolKind
  | .mk _ k _ _ _ _ => k

def SourceSymbol.base : SourceSymbol → Option SourceType
  | .mk _ _ b _ _ _ => b

def SourceSymbol.constInt : SourceSymbol → Int
  | .mk _ _ _ c _ _ => c

def SourceSymbol.constString : SourceSymbol → Option String
  | .mk _ _ _ _ s _ => s

def SourceSymbol.directives : SourceSymbol → List (String × List String)
  | .mk _ _ _ _ _ d => d

/-- Kind of an optional type descriptor; the source reads source_type.type
directly (a missing descriptor would be a crash there, here it simply fails
every kind test). -/
def optKind : Option SourceType → Option CTypeKind
  | none => none
  | some st => some st.kind

/-- Python dict lookup on an insertion-ordered association list. -/
def dictGet {α : Type} (l : List (String × α)) (k : String) : Option α :=
  match l.find? (fun kv => kv.1 == k) with
  | some kv => some kv.2
  | none => none

/-- Python dict lookup with default. -/
def dictGetD {α : Type} (l : List (String × α)) (k : String) (d : α) : α :=
  (dictGet l k).getD d

/-- Python dict assignment: replace the value of an existing key in place,
append a new key at the end. -/
def dictSet {α : Type} (l : List (String × α)) (k : String) (v : α) :
    List (String × α) :=
  if (dictGet l k).isSome then
    l.map (fun kv => if kv.1 == k then (k, v) else kv)
  else
    l ++ [(k, v)]

/-! String primitives of the embedding. The Python string operations are
rendered over character lists with structural recursion, so that every
definition evaluates by kernel reduction on concrete inputs. -/

/-- Lowercasing, as the Python str.lower on ASCII identifiers. -/
def strToLower (s : String) : String :=
  String.mk (s.toList.map Char.toLower)

/-- Whether the second list is a prefix of the first. -/
def listHasPfx : List Char → List Char → Bool
  | _, [] => true
  | [], _ :: _ => false
  | a :: as, b :: bs => a == b && listHasPfx as bs

/-- Python str.startswith. -/
def strStartsWith (s pfx : String) : Bool :=
  listHasPfx s.toList pfx.toList

/-- Python str.endswith. -/
def strEndsWith (s sfx : String) : Bool :=
  listHasPfx s.toList.reverse sfx.toList.reverse

/-- Python slicing from a character position onward. -/
def strDrop (s : String) (n : Nat) : String :=
  String.mk (s.toList.drop n)

/-- Python slicing that removes the last n characters. -/
def strDropRight (s : String) (n : Nat) : String :=
  String.mk (s.toList.take (s.toList.length - n))

/-- Character count. -/
def strLen (s : String) : Nat :=
  s.toList.length

/-- Python str.strip of surrounding whitespace. -/
def strStrip (s : String) : String :=
  String.mk
    (((s.toList.dropWhile Char.isWhitespace).reverse.dropWhile
        Char.isWhitespace).reverse)

/-- Helper of the Python str.split on a separator character. -/
def splitOnCharAux (sep : Char) : List Char → List Char → List String
  | [], acc => [String.mk acc.reverse]
  | c :: rest, acc =>
    if c == sep then String.mk acc.reverse :: splitOnCharAux sep rest []
    else splitOnCharAux sep rest (c :: acc)

/-- Python str.split on a separator character: every occurrence splits. -/
def splitOnChar (sep : Char) (s : String) : List String :=
  splitOnCharAux sep s.toList []

/-- Helper of re.split on whitespace runs: accumulates the current token in
reverse; the flag records that a whitespace run is being consumed, so a
maximal run produces one split. -/
def reSplitWsAux : List Char → List Char → Bool → List String
  | [], acc, _ => [String.mk acc.reverse]
  | c :: rest, acc, skipping =>
    if c.isWhitespace then
      if skipping then reSplitWsAux rest acc true
      else String.mk acc.reverse :: reSplitWsAux rest [] true
    else
      reSplitWsAux rest (c :: acc) false

/-- Splitting a string on maximal whitespace runs, as re.split of a
one-or-more whitespace pattern does in _parse_options. -/
def reSplitWs (s : String) : List String :=
  reSplitWsAux s.toList [] false

/-- The while loop of remove_prefix stripping leading underscores. -/
def dropLeadingUnderscores (s : String) : String :=
  String.mk (s.toList.dropWhile (fun c => c == '_'))

/-- Transformer.remove_prefix: strips the configured prefix (with a trailing
underscore appended for functions) case-insensitively when the name is
strictly longer than the prefix, then strips leading underscores. -/
def removePfx (stripPfxCfg : String) (name : String) (isfunction : Bool) :
    String :=
  let pfx0 := strToLower stripPfxCfg
  let pfx := if isfunction then pfx0 ++ "_" else pfx0
  let name1 :=
    if strLen name > strLen pfx && strStartsWith (strToLower name) pfx then
      strDrop name (strLen pfx)
    else
      name
  dropLeadingUnderscores name1

/-- Modelled from the spec: tables and constants the source imports from the
external ast module (not under src). builtinTypeNames is the static
basic-type table keyed by raw C type renderings (some pointer forms such as
a character pointer have their own canonical identity); basicGirTypes is the
set of by-value basic canonical names; defaultArrayTypes and defaultOutTypes
are the configured default-array and commonly-out sets; typeString and
typeNone are the canonical string-shaped and void-like type names. -/
structure AstEnv where
  builtinTypeNames : List (String × String) := []
  basicGirTypes : List String := []
  defaultArrayTypes : List String := []
  defaultOutTypes : List String := []
  typeString : String := "utf8"
  typeNone : String := "none"
  deriving DecidableEq, Repr

/-- Modelled from the spec: ast.type_name_from_ctype, the canonicalization
lookup of the Type Classifier — a static-table lookup that falls back to the
raw C type itself. -/
def typeNameFromCtype (env : AstEnv) (ctype : String) : String :=
  (dictGet env.builtinTypeNames ctype).getD ctype

/-- Rendering of a C type descriptor to a string (_create_source_type on a
present descriptor): arrays collapse to their element, pointers append one
star marker, basic and typedef kinds render their name, anything else is the
generic any. A missing nested descriptor renders like the Python None. -/
def renderSourceType : SourceType → String
  | .mk .void _ _ _ _ => "void"
  | .mk .basic n _ _ _ => n.getD "None"
  | .mk .typedefKind n _ _ _ => n.getD "None"
  | .mk .array _ _ b _ =>
    match b with
    | some bb => renderSourceType bb
    | none => "None"
  | .mk .pointer _ _ b _ =>
    (match b with
     | some bb => renderSourceType bb
     | none => "None") ++ "*"
  | .mk .invalid _ _ _ _ => "any"
  | .mk .func _ _ _ _ => "any"
  | .mk .structKind _ _ _ _ => "any"
  | .mk .unionKind _ _ _ _ => "any"
  | .mk .enumKind _ _ _ _ => "any"

/-- Transformer._create_source_type, including the None case. -/
def createSourceType : Option SourceType → String
  | none => "None"
  | some st => renderSourceType st

/-- The replace of all star markers in parse_ctype and in the ctype lookup of
_resolve_type_name_1. -/
def removeStars (s : String) : String :=
  String.mk (s.toList.filter (fun c => c != '*'))

/-- Transformer.parse_ctype: canonicalize the pointer-qualified rendering
first, then strip pointers and re-canonicalize; an aggregate member whose
first pass kept a pointer onto a by-value basic type becomes the generic
opaque any. -/
def parseCtype (env : AstEnv) (ctype : String) (isMember : Bool) : String :=
  let firstpass := typeNameFromCtype env ctype
  let derefed := removeStars firstpass
  let derefedTypename := typeNameFromCtype env derefed
  if isMember && strEndsWith firstpass "*" &&
      env.basicGirTypes.contains derefedTypename then
    "any"
  else
    derefedTypename

/-- Helper of toUnderscores inserting a separator between a lowercase letter
and a following uppercase letter. -/
def toUnderscoresAux : List Char → List Char
  | [] => []
  | [c] => [c]
  | a :: b :: rest =>
    if a.isLower && b.isUpper then a :: '_' :: toUnderscoresAux (b :: rest)
    else a :: toUnderscoresAux (b :: rest)

/-- Modelled from the spec: utils.to_underscores (not under src), which
converts a CamelCase namespace name to its underscore-separated form before
lowercasing, used by the namespace-prefix stripping of function names. -/
def toUnderscores (s : String) : String :=
  String.mk (toUnderscoresAux s.toList)

/-- Length of the longest common prefix of two character lists. -/
def commonPfxLen : List Char → List Char → Nat
  | a :: as, b :: bs => if a == b then 1 + commonPfxLen as bs else 0
  | _, _ => 0

/-- Modelled from the spec: utils.strip_common_prefix (not under src), which
strips the longest common prefix shared between the enum identifier and a
member label from the member label, separator included. -/
def stripCommonPrefix (enumIdent memberIdent : String) : String :=
  dropLeadingUnderscores
    (strDrop memberIdent (commonPfxLen enumIdent.toList memberIdent.toList))

/-- Transformer._parse_options: whitespace-tokenize each raw annotation
string, first token is the key and the remainder the argument list; a later
duplicate key overwrites the earlier one. -/
def parseOptions (options : List String) : List (String × List String) :=
  options.foldl
    (fun ret opt =>
      match reSplitWs opt with
      | [] => ret
      | key :: args => dictSet ret key args)
    []

/-- A type reference of the output model, modelled from the spec data model:
a plain scalar reference, an Array/List/Map composite owning nested element
references (strings, resolved later), or the variadic marker. Field defaults
follow the spec: arrays are zero-terminated unless a length or fixed size is
given. -/
structure ArrayData where
  name : String := "<carray>"
  ctype : String
  elementType : String
  lengthParamName : Option String := none
  lengthParamIndex : Option Nat := none
  zeroterminated : Bool := true
  size : Option String := none
  deriving DecidableEq, Repr

structure ListData where
  name : String
  ctype : String
  elementType : Option String := none
  deriving DecidableEq, Repr

structure MapData where
  name : String
  ctype : String
  keyType : Option String := none
  valueType : Option String := none
  deriving DecidableEq, Repr

inductive TypeRef where
  | plain (name ctype : String)
  | array (a : ArrayData)
  | listT (l : ListData)
  | mapT (m : MapData)
  | varargs
  deriving DecidableEq, Repr

/-- A Parameter node, modelled from the spec data model: type reference,
transfer tag (unset until resolved), transfer-inferred flag, direction and
nullability. -/
structure Parameter where
  name : String
  ptype : TypeRef
  direction : String := "in"
  transfer : Option String := none
  transfer_inferred : Bool := false
  allow_none : Bool := false
  deriving DecidableEq, Repr

/-- A Return node, modelled from the spec data model. -/
structure ReturnData where
  rtype : TypeRef
  transfer : Option String := none
  transfer_inferred : Bool := false
  deriving DecidableEq, Repr

structure FunctionData where
  name : String
  ret : ReturnData
  parameters : List Parameter
  symbol : String
  deprecated : Option String := none
  deprecatedVersion : Option String := none
  deriving DecidableEq, Repr

structure CallbackData where
  name : String
  retval : ReturnData
  parameters : List Parameter
  ident : String
  deriving DecidableEq, Repr

/-- The closed node variant set of the output model. Struct and union fields
are nodes themselves (a field or a callback). Member carries either the
integer literal of an enum value or the base-type name of an object
placeholder. -/
inductive Node where
  | functionNode (f : FunctionData)
  | callbackNode (c : CallbackData)
  | enumNode (name symbol : String) (members : List Node)
  | structNode (name symbol : String) (disguised : Bool) (fields : List Node)
  | unionNode (name symbol : String) (fields : List Node)
  | aliasNode (name target ctype : String)
  | memberNode (name : String) (valueInt : Option Int) (valueStr : Option String)
      (symbol : String)
  | fieldNode (name : String) (ftype : TypeRef) (symbol : String)
      (readable writable : Bool) (bits : Int)
  | constantNode (name tname : String) (valueInt : Int) (valueStr : Option String)

/-- Public name of a node. -/
def nodeName : Node → String
  | .functionNode f => f.name
  | .callbackNode c => c.name
  | .enumNode n _ _ => n
  | .structNode n _ _ _ => n
  | .unionNode n _ _ => n
  | .aliasNode n _ _ => n
  | .memberNode n _ _ _ => n
  | .fieldNode n _ _ _ _ _ => n
  | .constantNode n _ _ _ => n

/-- The four mappings of the Name Registry (class Names): short name, alias,
registered type name and raw C type, each to a namespace-or-local marker
paired with the node. -/
structure Names where
  names : List (String × (Option String × Node)) := []
  aliases : List (String × (Option String × Node)) := []
  type_names : List (String × (Option String × Node)) := []
  ctypes : List (String × (Option String × Node)) := []

/-- The Transformer state: the in-progress namespace (name, version, node
list), its Name Registry, the typedef-shell map, the configured strip
prefix, the container registries and the modelled ast tables. -/
structure TState where
  namespaceName : String := "Test"
  namespaceVersion : String := "1.0"
  nodes : List Node := []
  names : Names := {}
  typedefs_ns : List (String × Node) := []
  stripPfx : String := ""
  list_ctypes : List String := []
  map_ctypes : List String := []
  env : AstEnv := {}

/-- Transformer._strip_namespace_func: strip the lowercased namespace name
(or its underscore-separated form) with a trailing underscore, then apply
function-style prefix removal. -/
def stripNamespaceFunc (st : TState) (name : String) : String :=
  let p1 := strToLower st.namespaceName ++ "_"
  if strStartsWith (strToLower name) p1 then
    removePfx st.stripPfx (strDrop name (strLen p1)) true
  else
    let p2 := strToLower (toUnderscores st.namespaceName) ++ "_"
    if strStartsWith (strToLower name) p2 then
      removePfx st.stripPfx (strDrop name (strLen p2)) true
    else
      removePfx st.stripPfx name true

/-- Transformer._typepair_to_str: render an entry of the Name Registry, bare
for the namespace under construction, namespace-qualified for an included
one. -/
def typepairToStr : Option String × Node → String
  | (none, item) => nodeName item
  | (some ns, item) => ns ++ "." ++ nodeName item

/-- Transformer._resolve_type_name_1: the lookup chain — built-in table on
the raw C type, built-in table on the semantic name, registry ctypes with
stars stripped, then prefix-stripped semantic name against aliases, names
and type_names; a total miss raises KeyError. -/
def resolveTypeName1 (st : TState) (typeName : String) (ctype : Option String)
    (names : Names) : Except TransErr String :=
  let builtinCt : Option String :=
    match ctype with
    | some ct => if ct != "" then dictGet st.env.builtinTypeNames ct else none
    | none => none
  match builtinCt with
  | some v => .ok v
  | none =>
    match dictGet st.env.builtinTypeNames typeName with
    | some v => .ok v
    | none =>
      let viaCtypes : Option (Option String × Node) :=
        match ctype with
        | some ct =>
          if ct != "" then dictGet names.ctypes (removeStars ct) else none
        | none => none
      match viaCtypes with
      | some pr => .ok (typepairToStr pr)
      | none =>
        let tn := removePfx st.stripPfx typeName false
        match dictGet names.aliases tn with
        | some pr => .ok (typepairToStr pr)
        | none =>
          match dictGet names.names tn with
          | some pr => .ok (typepairToStr pr)
          | none =>
            match dictGet names.type_names tn with
            | some pr => .ok (typepairToStr pr)
            | none => .error (.keyError ("failed to find " ++ tn))

/-- Transformer.resolve_type_name_full: try the given registry, on KeyError
retry with the transformer registry, on a second KeyError either re-raise
(strict) or fall back to the original name. -/
def resolveTypeNameFull (st : TState) (typeName : String) (ctype : Option String)
    (names : Names) (allowInvalid : Bool) : Except TransErr String :=
  match resolveTypeName1 st typeName ctype names with
  | .ok v => .ok v
  | .error (.keyError _) =>
    match resolveTypeName1 st typeName ctype st.names with
    | .ok v => .ok v
    | .error (.keyError m) =>
      if allowInvalid then .ok typeName else .error (.keyError m)
    | .error e => .error e
  | .error e => .error e

/-- Transformer.resolve_type_name: non-strict resolution against the
transformer registry, absorbing a miss into the original name. -/
def resolveTypeName (st : TState) (typeName : String) (ctype : Option String) :
    String :=
  match resolveTypeNameFull st typeName ctype st.names true with
  | .ok v => v
  | .error _ => typeName

/-- Transformer.resolve_param_type_full: rewrite the name of a type
reference and recurse into Array/List element and Map key/value references
(which are plain strings here, resolved with no raw C type). A Map whose key
is set but whose value is missing is the assertion failure of the source.
The variadic marker carries no name in this model and resolves to itself
(the source never reaches it: ellipsis parameters skip resolution). -/
def resolveParamTypeFull (st : TState) (names : Names) (allowInvalid : Bool) :
    TypeRef → Except TransErr TypeRef
  | .plain name ctype =>
    (resolveTypeNameFull st name (some ctype) names allowInvalid).map
      (fun n => TypeRef.plain n ctype)
  | .array a =>
    match resolveTypeNameFull st a.name (some a.ctype) names allowInvalid with
    | .error e => .error e
    | .ok n =>
      match resolveTypeNameFull st a.elementType none names allowInvalid with
      | .error e => .error e
      | .ok el => .ok (.array { a with name := n, elementType := el })
  | .listT l =>
    match resolveTypeNameFull st l.name (some l.ctype) names allowInvalid with
    | .error e => .error e
    | .ok n =>
      match l.elementType with
      | none => .ok (.listT { l with name := n })
      | some el =>
        match resolveTypeNameFull st el none names allowInvalid with
        | .error e => .error e
        | .ok el2 => .ok (.listT { l with name := n, elementType := some el2 })
  | .mapT m =>
    match resolveTypeNameFull st m.name (some m.ctype) names allowInvalid with
    | .error e => .error e
    | .ok n =>
      match m.keyType with
      | none => .ok (.mapT { m with name := n })
      | some k =>
        match resolveTypeNameFull st k none names allowInvalid with
        | .error e => .error e
        | .ok k2 =>
          match m.valueType with
          | none => .error (.assertionError "Unhandled param")
          | some v =>
            match resolveTypeNameFull st v none names allowInvalid with
            | .error e => .error e
            | .ok v2 =>
              .ok (.mapT
                { m with name := n, keyType := some k2, valueType := some v2 })
  | .varargs => .ok .varargs

/-- Transformer.resolve_param_type: non-strict recursive resolution against
the transformer registry; a KeyError is absorbed into the unresolved
reference, any other failure propagates as in the source. -/
def resolveParamType (st : TState) (ptype : TypeRef) : Except TransErr TypeRef :=
  match resolveParamTypeFull st st.names true ptype with
  | .ok t => .ok t
  | .error (.keyError _) => .ok ptype
  | .error e => .error e

/-- Const qualification of the pointee, as read by the transfer heuristics
(source_type.base_type.type_qualifier against the const mask; the source
reads the attribute directly, a missing pointee simply counts as not
const-qualified here). -/
def pointeeConst : Option SourceType → Bool
  | none => false
  | some st =>
    match st.base with
    | some b => b.constQualified
    | none => false

/-- The transfer-inference heuristic chain of _create_type, run only when no
explicit transfer was declared: string-shaped looks at the pointee const
qualifier; arrays, basic/void/enum kinds and const pointees give none;
generic pointer parameters give full only when an out direction is present;
anything else gives none for parameters and full for return values. -/
def inferTransfer (env : AstEnv) (options : List (String × List String))
    (canontype : String) (sourceType : Option SourceType) (isParam : Bool) :
    List String :=
  if canontype == env.typeString then
    if pointeeConst sourceType then ["none"] else ["full"]
  else if (dictGet options "array").isSome
      || optKind sourceType == some CTypeKind.array then
    ["none"]
  else if env.basicGirTypes.contains canontype || canontype == env.typeNone
      || optKind sourceType == some CTypeKind.enumKind then
    ["none"]
  else if optKind sourceType == some CTypeKind.pointer
      && pointeeConst sourceType then
    ["none"]
  else if isParam && optKind sourceType == some CTypeKind.pointer then
    if (dictGet options "out").isSome || (dictGet options "inout").isSome
        || (dictGet options "in-out").isSome then
      ["full"]
    else
      ["none"]
  else if isParam then ["none"]
  else ["full"]

/-- The dict built from the array sub-options of _create_type: each raw
sub-option must split on the separator into exactly a key and a value, as
the Python dict construction over split pairs requires. -/
def buildArrayOpts (raw : List String) :
    Except TransErr (List (String × String)) :=
  raw.foldlM
    (fun acc opt =>
      match splitOnChar '=' opt with
      | [k, v] => .ok (dictSet acc k v)
      | _ => .error (.valueError "bad array sub-option"))
    []

/-- The container/array/scalar dispatch of _create_type: build the List, Map,
Array or plain reference and report the dereferenced name the later
direction deduction uses. -/
def buildRettype (st : TState) (ctype : String)
    (options : List (String × List String)) (isParam isRetval : Bool) :
    Except TransErr (TypeRef × String) :=
  if st.list_ctypes.contains ctype then
    let containedType : Option String :=
      match dictGet options "element-type" with
      | some (p0 :: _) => some (parseCtype st.env p0 false)
      | _ => none
    let derefedName := parseCtype st.env ctype false
    .ok (.listT { name := derefedName, ctype := ctype,
                  elementType := containedType }, derefedName)
  else if st.map_ctypes.contains ctype then
    let derefedName := parseCtype st.env ctype false
    match dictGet options "element-type" with
    | some (k :: v :: _) =>
      .ok (.mapT { name := derefedName, ctype := ctype,
                   keyType := some (parseCtype st.env k false),
                   valueType := some (parseCtype st.env v false) }, derefedName)
    | some (_ :: []) => .error (.indexError "element-type")
    | _ =>
      .ok (.mapT { name := derefedName, ctype := ctype }, derefedName)
  else if (isParam && st.env.defaultArrayTypes.contains ctype)
      || (dictGet options "array").isSome then
    let derefedName := if strEndsWith ctype "*" then strDropRight ctype 1 else ctype
    match buildArrayOpts (dictGetD options "array" []) with
    | .error e => .error e
    | .ok aopts =>
      let a0 : ArrayData :=
        { ctype := ctype, elementType := parseCtype st.env derefedName false }
      let a1 :=
        match dictGet aopts "length" with
        | some v => { a0 with lengthParamName := some v, zeroterminated := false }
        | none => a0
      let a2 :=
        match dictGet aopts "fixed-size" with
        | some v => { a1 with size := some v, zeroterminated := false }
        | none => a1
      let a3 :=
        match dictGet aopts "zero-terminated" with
        | some v => { a2 with zeroterminated := v != "0" }
        | none => a2
      .ok (.array a3, derefedName)
  else
    let derefedName := parseCtype st.env ctype (!(isParam || isRetval))
    .ok (.plain derefedName ctype, derefedName)

/-- Transformer._create_type: render the C type (skipping the variadic-list
and file-handle renderings), build the reference, deduce an out direction
for non-array pointers to commonly-out types, then, unless transfer was
declared explicitly, record the inferred transfer and the inferred flag in
the option map. -/
def createType (st : TState) (sourceType : Option SourceType)
    (options : List (String × List String)) (isParam isRetval : Bool) :
    Except TransErr (TypeRef × List (String × List String)) :=
  let ctype := createSourceType sourceType
  if ctype == "va_list" then .error .skip
  else if ctype == "FILE*" then .error .skip
  else
    match buildRettype st ctype options isParam isRetval with
    | .error e => .error e
    | .ok (rettype, derefedName) =>
      let options :=
        if (dictGet options "array").isNone
            && (dictGet options "out").isNone
            && (dictGet options "in").isNone
            && (dictGet options "inout").isNone
            && (dictGet options "in-out").isNone
            && optKind sourceType == some CTypeKind.pointer
            && st.env.defaultOutTypes.contains derefedName then
          dictSet options "out" []
        else
          options
      if (dictGet options "transfer").isSome then
        .ok (rettype, options)
      else
        let canontype := typeNameFromCtype st.env ctype
        let options := dictSet options "transfer-inferred" []
        let options :=
          dictSet options "transfer"
            (inferTransfer st.env options canontype sourceType isParam)
        .ok (rettype, options)

/-- Transformer._handle_generic_param_options on the transfer fields of a
parameter or return. The source iterates the items of the option dict; its
keys are unique, so the handling of the two recognized keys is rendered as a
direct lookup each: an explicit transfer with an argument must be one of the
three valid tokens (anything else is the hard ValueError), an explicit
transfer with no argument at all silently becomes full, and the presence of
the internal transfer-inferred key sets the inferred flag. -/
def handleGenericParamOptions (transfer0 : Option String) (inferred0 : Bool)
    (options : List (String × List String)) :
    Except TransErr (Option String × Bool) :=
  let inferred :=
    if (dictGet options "transfer-inferred").isSome then true else inferred0
  match dictGet options "transfer" with
  | none => .ok (transfer0, inferred)
  | some [] => .ok (some "full", inferred)
  | some (depth :: _) =>
    if depth == "none" || depth == "container" || depth == "full" then
      .ok (some depth, inferred)
    else
      .error (.valueError ("Invalid transfer " ++ depth))

/-- The option loop of _create_parameter setting direction and nullability;
the transfer keys are handled separately and unknown options only reach the
diagnostic sink. -/
def applyParamOptions (p : Parameter)
    (options : List (String × List String)) : Parameter :=
  options.foldl
    (fun p kv =>
      if kv.1 == "in-out" || kv.1 == "inout" then { p with direction := "inout" }
      else if kv.1 == "in" then { p with direction := "in" }
      else if kv.1 == "out" then { p with direction := "out" }
      else if kv.1 == "allow-none" then { p with allow_none := true }
      else p)
    p

/-- The type-building half of _create_parameter: an ellipsis becomes the
variadic marker with transfer defaulted to none; anything else goes through
_create_type and non-strict resolution. The updated option map travels with
the type. -/
def createParameterType (st : TState) (symbol : SourceSymbol)
    (options : List (String × List String)) :
    Except TransErr (TypeRef × List (String × List String)) :=
  if symbol.kind == CSymbolKind.ellipsis then
    let options2 :=
      if (dictGet options "transfer").isNone then
        dictSet options "transfer" ["none"]
      else
        options
    .ok (.varargs, options2)
  else
    match createType st symbol.base options true false with
    | .error e => .error e
    | .ok (t, opts) =>
      match resolveParamType st t with
      | .error e => .error e
      | .ok t2 => .ok (t2, opts)

/-- The finishing half of _create_parameter: apply the direction and
nullability options, the generic transfer handling, and the final assertion
that transfer was set. -/
def createParameterFinish (symbol : SourceSymbol) (ptype : TypeRef)
    (options : List (String × List String)) : Except TransErr Parameter :=
  let param := applyParamOptions { name := symbol.ident, ptype := ptype } options
  match handleGenericParamOptions param.transfer param.transfer_inferred options with
  | .error e => .error e
  | .ok (xfer, inf) =>
    let param2 := { param with transfer := xfer, transfer_inferred := inf }
    if param2.transfer == none then
      .error (.assertionError "param transfer unset")
    else
      .ok param2

/-- Transformer._create_parameter. -/
def createParameter (st : TState) (symbol : SourceSymbol)
    (optionStrs : List String) : Except TransErr Parameter :=
  match createParameterType st symbol (parseOptions optionStrs) with
  | .error e => .error e
  | .ok (ptype, options) => createParameterFinish symbol ptype options

/-- The finishing half of _create_return: the Return starts with transfer
unset and not inferred, the generic transfer handling fills it, and the
final assertion checks it was set. -/
def createReturnFinish (rtype : TypeRef)
    (optionsMap : List (String × List String)) : Except TransErr ReturnData :=
  match handleGenericParamOptions none false optionsMap with
  | .error e => .error e
  | .ok (xfer, inf) =>
    let ret : ReturnData :=
      { rtype := rtype, transfer := xfer, transfer_inferred := inf }
    if ret.transfer == none then
      .error (.assertionError "return transfer unset")
    else
      .ok ret

/-- Transformer._create_return: parse the return options, build and resolve
the type, then finish. -/
def createReturn (st : TState) (sourceType : Option SourceType)
    (optionStrs : List String) : Except TransErr ReturnData :=
  match createType st sourceType (parseOptions optionStrs) false true with
  | .error e => .error e
  | .ok (rtype0, optionsMap) =>
    match resolveParamType st rtype0 with
    | .error e => .error e
    | .ok rtype => createReturnFinish rtype optionsMap

/-- Children of an optional type descriptor (the child_list or nothing). -/
def baseChildren : Option SourceType → List SourceSymbol
  | none => []
  | some st => st.children

/-- The per-child loop of _create_parameters: one Parameter per child
declaration, pairing the annotations whose target matches the child
identifier, empty options otherwise. -/
def createParametersLoop (st : TState) (dirs : List (String × List String)) :
    List SourceSymbol → Except TransErr (List Parameter)
  | [] => .ok []
  | child :: rest =>
    match createParameter st child (dictGetD dirs child.ident []) with
    | .error e => .error e
    | .ok p =>
      match createParametersLoop st dirs rest with
      | .error e => .error e
      | .ok ps => .ok (p :: ps)

/-- Transformer._create_parameters (the warning about annotations for
unknown parameters only reaches the diagnostic sink). -/
def createParameters (st : TState) (base : Option SourceType)
    (dirs : List (String × List String)) : Except TransErr (List Parameter) :=
  createParametersLoop st dirs (baseChildren base)

/-- Transformer._pair_array: an Array carrying a (non-empty, i.e. truthy)
length-parameter name gets the index of the first parameter of that exact
name over the full parameter list, or the hard unmatched-name ValueError. -/
def pairArray (params : List Parameter) (param : Parameter) :
    Except TransErr Parameter :=
  match param.ptype with
  | .array a =>
    match a.lengthParamName with
    | none => .ok param
    | some target =>
      if target == "" then .ok param
      else
        match params.findIdx? (fun p => p.name == target) with
        | some i =>
          .ok { param with ptype := .array { a with lengthParamIndex := some i } }
        | none =>
          .error (.valueError ("Unmatched length parameter name " ++ target))
  | _ => .ok param

/-- The loop of _pair_annotations: walk the parameters accumulating seen
names, raise the hard ValueError on a duplicate, and pair each Array-typed
parameter against the full list. -/
def pairAnnotationsLoop (params : List Parameter) (seen : List String) :
    List Parameter → Except TransErr (List Parameter)
  | [] => .ok []
  | p :: rest =>
    if seen.contains p.name then
      .error (.valueError ("Duplicate parameter name " ++ p.name))
    else
      match
        (match p.ptype with
         | .array _ => pairArray params p
         | _ => .ok p) with
      | .error e => .error e
      | .ok p2 =>
        match pairAnnotationsLoop params (p.name :: seen) rest with
        | .error e => .error e
        | .ok rest2 => .ok (p2 :: rest2)

/-- Transformer._pair_annotations. -/
def pairAnnotations (params : List Parameter) :
    Except TransErr (List Parameter) :=
  pairAnnotationsLoop params [] params

/-- Transformer._parse_deprecated: a truthy deprecated directive either
splits once on the colon into a version tag and a message, or is the whole
message. -/
def parseDeprecated (f : FunctionData)
    (directives : List (String × List String)) : FunctionData :=
  match dictGet directives "deprecated" with
  | some (value :: _) =>
    if value.toList.contains ':' then
      let cs := value.toList
      let left := String.mk (cs.takeWhile (fun c => c != ':'))
      let right := String.mk ((cs.dropWhile (fun c => c != ':')).drop 1)
      { f with deprecatedVersion := some (strStrip left), deprecated := some (strStrip right) }
    else
      { f with deprecated := some (strStrip value) }
  | _ => f

/-- Transformer._create_function: build the parameters, pair the
annotations, build the return from the result descriptor, strip the
namespace prefix for the public name and propagate deprecation. -/
def createFunction (st : TState) (symbol : SourceSymbol) :
    Except TransErr FunctionData :=
  let directives := symbol.directives
  match createParameters st symbol.base directives with
  | .error e => .error e
  | .ok parameters0 =>
    match pairAnnotations parameters0 with
    | .error e => .error e
    | .ok parameters =>
      match createReturn st (symbol.base.bind SourceType.base)
          (dictGetD directives "return" []) with
      | .error e => .error e
      | .ok ret =>
        let name := stripNamespaceFunc st symbol.ident
        let func : FunctionData :=
          { name := name, ret := ret, parameters := parameters,
            symbol := symbol.ident }
        .ok (parseDeprecated func directives)

/-- Python str.find of the underscore: index of the first occurrence or -1. -/
def pyFindUnderscore (s : String) : Int :=
  match s.toList.findIdx? (fun c => c == '_') with
  | some i => (i : Int)
  | none => -1

/-- Transformer._create_callback: parameters and return come from the nested
function-type descriptor. The source builds the parameter list lazily at the
Callback construction, after the return value, so the return is built first
here; the naming uses function-style prefix removal only when the raw
identifier has an internal separator past its first character. -/
def createCallback (st : TState) (symbol : SourceSymbol) :
    Except TransErr CallbackData :=
  let directives := symbol.directives
  let ftype := symbol.base.bind SourceType.base
  match createReturn st (ftype.bind SourceType.base)
      (dictGetD directives "return" []) with
  | .error e => .error e
  | .ok retval =>
    match createParameters st ftype directives with
    | .error e => .error e
    | .ok parameters =>
      let name :=
        if pyFindUnderscore symbol.ident > 0 then
          removePfx st.stripPfx symbol.ident true
        else
          removePfx st.stripPfx symbol.ident false
      .ok { name := name, retval := retval, parameters := parameters,
            ident := symbol.ident }

/-- Transformer._create_enum: member names drop the common prefix shared
with the enum identifier and are lowercased; the enum is registered under
its raw C identifier in the type-name mapping of the registry. -/
def createEnum (st : TState) (symbol : SourceSymbol) : Node × TState :=
  let members := (baseChildren symbol.base).map
    (fun child =>
      Node.memberNode (strToLower (stripCommonPrefix symbol.ident child.ident))
        (some child.constInt) none child.ident)
  let enumName := removePfx st.stripPfx symbol.ident false
  let enum := Node.enumNode enumName symbol.ident members
  let tns := dictSet st.names.type_names symbol.ident (none, enum)
  (enum, { st with names := { st.names with type_names := tns } })

/-- Transformer._create_object: a lightweight Member node carrying the
identifier and the underlying base-type name. -/
def createObject (symbol : SourceSymbol) : Node :=
  Node.memberNode symbol.ident none (symbol.base.bind SourceType.name)
    symbol.ident

/-- Transformer._create_const: string or integer constant depending on which
literal the symbol carries; the name is prefix-stripped. -/
def createConst (st : TState) (symbol : SourceSymbol) : Node :=
  let name := removePfx st.stripPfx symbol.ident false
  match symbol.constString with
  | none => Node.constantNode name "int" symbol.constInt none
  | some s => Node.constantNode name "utf8" symbol.constInt (some s)

/-- Transformer._create_member: a function-pointer member becomes a Callback
field, an array member gets an implicit fixed-size option from its declared
bound, everything else becomes a read-write Field through _create_type (as
an aggregate member, neither parameter nor return value). -/
def createMember (st : TState) (symbol : SourceSymbol) :
    Except TransErr Node :=
  if optKind symbol.base == some CTypeKind.pointer
      && optKind (symbol.base.bind SourceType.base) == some CTypeKind.func then
    match createCallback st symbol with
    | .error e => .error e
    | .ok c => .ok (.callbackNode c)
  else
    let opts : List (String × List String) :=
      if optKind symbol.base == some CTypeKind.array then
        match baseChildren symbol.base with
        | child :: _ => [("array", ["fixed-size=" ++ toString child.constInt])]
        | [] => [("array", [])]
      else
        []
    match createType st symbol.base opts false false with
    | .error e => .error e
    | .ok (ftype0, _) =>
      match resolveParamType st ftype0 with
      | .error e => .error e
      | .ok ftype =>
        .ok (.fieldNode symbol.ident ftype symbol.ident true true
          symbol.constInt)

/-- Appending traversed fields to an aggregate node (the fields.append loop
of the struct and union builders; the pre-registered shell may be of either
aggregate kind). -/
def nodeAppendFields (base : Node) (fields : List Node) : Node :=
  match base with
  | .structNode n s d fs => .structNode n s d (fs ++ fields)
  | .unionNode n s fs => .unionNode n s (fs ++ fields)
  | other => other

/-- The child loop shared by the struct and union builders: traverse each
child, keep the truthy results, thread the state. The traversal itself is
passed in as a callback (the recursion is closed by traverseOne below). -/
def structFieldsLoop
    (trav : TState → SourceSymbol → Except TransErr (Option Node × TState)) :
    TState → List SourceSymbol → List Node →
    Except TransErr (List Node × TState)
  | st, [], acc => .ok (acc, st)
  | st, child :: rest, acc =>
    match trav st child with
    | .error e => .error e
    | .ok (field, st2) =>
      structFieldsLoop trav st2 rest
        (match field with
         | some f => acc ++ [f]
         | none => acc)

/-- Transformer._create_struct: resolve the pre-registered typedef shell by
raw C identifier or create a fresh aggregate (dropping one leading
underscore before prefix removal), then append one field per child. The
typedef-shell entry is updated to the grown node, mirroring that the source
mutates the registered object in place. -/
def createStruct
    (trav : TState → SourceSymbol → Except TransErr (Option Node × TState))
    (st : TState) (symbol : SourceSymbol) : Except TransErr (Node × TState) :=
  let base : Node :=
    match dictGet st.typedefs_ns symbol.ident with
    | some n => n
    | none =>
      let name0 :=
        if strStartsWith symbol.ident "_" then strDrop symbol.ident 1
        else symbol.ident
      Node.structNode (removePfx st.stripPfx name0 false) symbol.ident false []
  match structFieldsLoop trav st (baseChildren symbol.base) [] with
  | .error e => .error e
  | .ok (fields, st2) =>
    let node := nodeAppendFields base fields
    let st3 :=
      if (dictGet st2.typedefs_ns symbol.ident).isSome then
        { st2 with typedefs_ns := dictSet st2.typedefs_ns symbol.ident node }
      else
        st2
    .ok (node, st3)

/-- Transformer._create_union, the union twin of the struct builder. -/
def createUnion
    (trav : TState → SourceSymbol → Except TransErr (Option Node × TState))
    (st : TState) (symbol : SourceSymbol) : Except TransErr (Node × TState) :=
  let base : Node :=
    match dictGet st.typedefs_ns symbol.ident with
    | some n => n
    | none =>
      let name0 :=
        if strStartsWith symbol.ident "_" then strDrop symbol.ident 1
        else symbol.ident
      Node.unionNode (removePfx st.stripPfx name0 false) symbol.ident []
  match structFieldsLoop trav st (baseChildren symbol.base) [] with
  | .error e => .error e
  | .ok (fields, st2) =>
    let node := nodeAppendFields base fields
    let st3 :=
      if (dictGet st2.typedefs_ns symbol.ident).isSome then
        { st2 with typedefs_ns := dictSet st2.typedefs_ns symbol.ident node }
      else
        st2
    .ok (node, st3)

/-- Transformer._create_typedef_struct: register a named shell (possibly
disguised) under the raw C identifier, then run the struct builder, which
finds and grows that shell. -/
def createTypedefStruct
    (trav : TState → SourceSymbol → Except TransErr (Option Node × TState))
    (st : TState) (symbol : SourceSymbol) (disguised : Bool) :
    Except TransErr (Option Node × TState) :=
  let name := removePfx st.stripPfx symbol.ident false
  let shell := Node.structNode name symbol.ident disguised []
  let st2 := { st with typedefs_ns := dictSet st.typedefs_ns symbol.ident shell }
  match createStruct trav st2 symbol with
  | .error e => .error e
  | .ok (node, st3) => .ok (some node, st3)

/-- Transformer._create_typedef_union. -/
def createTypedefUnion
    (trav : TState → SourceSymbol → Except TransErr (Option Node × TState))
    (st : TState) (symbol : SourceSymbol) :
    Except TransErr (Option Node × TState) :=
  let name := removePfx st.stripPfx symbol.ident false
  let shell := Node.unionNode name symbol.ident []
  let st2 := { st with typedefs_ns := dictSet st.typedefs_ns symbol.ident shell }
  match createUnion trav st2 symbol with
  | .error e => .error e
  | .ok (node, st3) => .ok (some node, st3)

/-- Transformer._create_typedef: dispatch on the pointee kind — a
function-pointer pointee becomes a Callback, a pointer-to-struct a disguised
Struct, struct/union/enum go to their aggregate builders, and the remaining
basic/pointer/typedef/void kinds become an Alias unless the stripped name
collides with the built-in type table, in which case no node is produced. -/
def createTypedef
    (trav : TState → SourceSymbol → Except TransErr (Option Node × TState))
    (st : TState) (symbol : SourceSymbol) :
    Except TransErr (Option Node × TState) :=
  let ctk := optKind symbol.base
  if ctk == some CTypeKind.pointer
      && optKind (symbol.base.bind SourceType.base) == some CTypeKind.func then
    match createCallback st symbol with
    | .error e => .error e
    | .ok c => .ok (some (.callbackNode c), st)
  else if ctk == some CTypeKind.pointer
      && optKind (symbol.base.bind SourceType.base)
          == some CTypeKind.structKind then
    createTypedefStruct trav st symbol true
  else if ctk == some CTypeKind.structKind then
    createTypedefStruct trav st symbol false
  else if ctk == some CTypeKind.unionKind then
    createTypedefUnion trav st symbol
  else if ctk == some CTypeKind.enumKind then
    let (n, st2) := createEnum st symbol
    .ok (some n, st2)
  else if ctk == some CTypeKind.typedefKind || ctk == some CTypeKind.pointer
      || ctk == some CTypeKind.basic || ctk == some CTypeKind.void then
    let name := removePfx st.stripPfx symbol.ident false
    let target :=
      match symbol.base.bind SourceType.name with
      | some n => if n != "" then removePfx st.stripPfx n false else "none"
      | none => "none"
    if (dictGet st.env.builtinTypeNames name).isSome then
      .ok (none, st)
    else
      .ok (some (.aliasNode name target symbol.ident), st)
  else
    .error (.notImplemented ("typedef " ++ symbol.ident))

/-- One dispatch step of _traverse_one, the traversal callback abstracted
(closed by traverseOne): a SkipError is absorbed only in the function
branch, an unhandled kind is the hard NotImplementedError. -/
def traverseStep
    (trav : TState → SourceSymbol → Except TransErr (Option Node × TState))
    (st : TState) (symbol : SourceSymbol) (stypeOverride : Option CSymbolKind) :
    Except TransErr (Option Node × TState) :=
  let stype := stypeOverride.getD symbol.kind
  match stype with
  | .func =>
    match createFunction st symbol with
    | .ok f => .ok (some (.functionNode f), st)
    | .error .skip => .ok (none, st)
    | .error e => .error e
  | .typedefKind => createTypedef trav st symbol
  | .structKind =>
    match createStruct trav st symbol with
    | .error e => .error e
    | .ok (n, st2) => .ok (some n, st2)
  | .enumKind =>
    let (n, st2) := createEnum st symbol
    .ok (some n, st2)
  | .objectKind => .ok (some (createObject symbol), st)
  | .member =>
    match createMember st symbol with
    | .error e => .error e
    | .ok n => .ok (some n, st)
  | .unionKind =>
    match createUnion trav st symbol with
    | .error e => .error e
    | .ok (n, st2) => .ok (some n, st2)
  | .constKind => .ok (some (createConst st symbol), st)
  | _ => .error (.notImplemented ("unhandled symbol " ++ symbol.ident))

/-- Transformer._traverse_one. The fuel only bounds the recursion into
nested aggregate children (in the source that recursion is bounded by the
size of the input term); every dispatch consumes one unit. -/
def traverseOne : Nat → TState → SourceSymbol → Option CSymbolKind →
    Except TransErr (Option Node × TState)
  | 0, _, _, _ => .error .fuelExhausted
  | fuel + 1, st, symbol, stypeOverride =>
    traverseStep (fun st2 sym2 => traverseOne fuel st2 sym2 none)
      st symbol stypeOverride

/-- Transformer._add_node: nothing to add for a missing node or a name
starting with an underscore; otherwise append to the public node list and
record the node in the names mapping of the registry. -/
def addNode (st : TState) (node : Option Node) : TState :=
  match node with
  | none => st
  | some n =>
    if strStartsWith (nodeName n) "_" then st
    else
      let nm := dictSet st.names.names (nodeName n) (none, n)
      { st with nodes := st.nodes ++ [n],
                names := { st.names with names := nm } }

/-- Transformer.parse: traverse each symbol of the stream in order and add
the resulting node; any uncaught failure aborts the whole parse. -/
def parseSymbols (fuel : Nat) (st : TState) (symbols : List SourceSymbol) :
    Except TransErr TState :=
  match symbols with
  | [] => .ok st
  | sym :: rest =>
    match traverseOne fuel st sym none with
    | .error e => .error e
    | .ok (node, st2) => parseSymbols fuel (addNode st2 node) rest

/-! Concrete fixtures used by witnesses and counterexamples: a small modelled
basic-type table and a handful of C type descriptors and symbols. -/

/-- A small concrete instance of the modelled ast tables. -/
def env0 : AstEnv :=
  { builtinTypeNames := [("char*", "utf8"), ("void", "none"), ("int", "int")],
    basicGirTypes := ["int"],
    defaultArrayTypes := [],
    defaultOutTypes := [] }

/-- A fresh transformer over the concrete tables. -/
def st0 : TState := { env := env0 }

def intType : SourceType :=
  SourceType.mk CTypeKind.basic (some "int") false none []

def voidType : SourceType :=
  SourceType.mk CTypeKind.void none false none []

def vaListType : SourceType :=
  SourceType.mk CTypeKind.typedefKind (some "va_list") false none []

def constCharType : SourceType :=
  SourceType.mk CTypeKind.basic (some "char") true none []

def charType : SourceType :=
  SourceType.mk CTypeKind.basic (some "char") false none []

def constCharPtrType : SourceType :=
  SourceType.mk CTypeKind.pointer none false (some constCharType) []

def charPtrType : SourceType :=
  SourceType.mk CTypeKind.pointer none false (some charType) []

/-- A parameter declaration of the given name and type. -/
def paramSym (n : String) (t : SourceType) : SourceSymbol :=
  SourceSymbol.mk n CSymbolKind.member (some t) 0 none []

/-- A function type descriptor with the given parameter children and result. -/
def funcType (params : List SourceSymbol) (ret : SourceType) : SourceType :=
  SourceType.mk CTypeKind.func none false (some ret) params

/-! Claim C7. -/

/-- Claim C7: with configured strip prefix g, prefix removal maps the
function identifier g_hash_table_new to hash_table_new and the type
identifier GHashTable to HashTable. -/
theorem c7_strip_examples :
    removePfx "g" "g_hash_table_new" true = "hash_table_new" ∧
    removePfx "g" "GHashTable" false = "HashTable" := by
  exact ⟨by decide, by decide⟩

/-! Claim C10. -/

/-- Claim C10: a parameter or return carrying an explicit transfer
annotation whose argument list is empty raises no validation error; option
handling silently sets the transfer tag to full. -/
theorem c10_empty_transfer_token_full (transfer0 : Option String)
    (inferred0 : Bool) (options : List (String × List String))
    (h : dictGet options "transfer" = some []) :
    handleGenericParamOptions transfer0 inferred0 options =
      Except.ok (some "full",
        if (dictGet options "transfer-inferred").isSome then true
        else inferred0) := by
  unfold handleGenericParamOptions
  rw [h]

/-- Claim C10 witness at a concrete option map built from the raw annotation
string with no argument token. -/
theorem c10_witness :
    dictGet (parseOptions ["transfer"]) "transfer" = some [] ∧
    handleGenericParamOptions none false (parseOptions ["transfer"]) =
      Except.ok (some "full", false) := by
  refine ⟨by decide, ?_⟩
  have h := c10_empty_transfer_token_full none false (parseOptions ["transfer"])
    (by decide)
  simpa using h

/-! Claim C6. -/

/-- An underscore-named function node. -/
def underscoreNode : Node :=
  Node.functionNode
    { name := "_foo", ret := { rtype := TypeRef.plain "none" "void" },
      parameters := [], symbol := "_foo" }

/-- Claim C6 counterexample: adding an underscore-named node to a fresh
transformer leaves the public node list unchanged, but the node is not
resolvable through the Name Registry afterwards — the names mapping does not
receive it, contradicting that it remains internally resolvable. -/
theorem c6_counterexample :
    (addNode st0 (some underscoreNode)).nodes = [] ∧
    dictGet (addNode st0 (some underscoreNode)).names.names "_foo" = none := by
  exact ⟨rfl, rfl⟩

/-- Claim C6 amended: adding a node whose name starts with an underscore
leaves the transformer state entirely unchanged — the node is excluded from
the public node list and is not registered in the Name Registry either. -/
theorem c6_underscore_add_noop (st : TState) (n : Node)
    (h : strStartsWith (nodeName n) "_" = true) :
    addNode st (some n) = st := by
  simp [addNode, h]

/-- Claim C6 witness. -/
theorem c6_witness :
    strStartsWith (nodeName underscoreNode) "_" = true ∧
    addNode st0 (some underscoreNode) = st0 :=
  ⟨by decide, c6_underscore_add_noop st0 underscoreNode (by decide)⟩

/-! Claim C4. -/

/-- The result shape of a successful length pairing: the parameter with the
length-parameter index of its array type set. -/
def withLengthIndex (param : Parameter) (a : ArrayData) (i : Nat) : Parameter :=
  { param with ptype := TypeRef.array { a with lengthParamIndex := some i } }

/-- Claim C4: for an Array-typed parameter carrying a (truthy)
length-parameter name, pairing over the full parameter list either records
the position of the first parameter bearing exactly that name, or, when no
parameter has that name, raises the hard unmatched-name ValueError. -/
theorem c4_length_param_pairing (params : List Parameter) (param : Parameter)
    (a : ArrayData) (target : String)
    (ht : param.ptype = TypeRef.array a)
    (hn : a.lengthParamName = some target)
    (hne : (target == "") = false) :
    ((∃ p ∈ params, p.name = target) →
      pairArray params param = Except.ok
        (withLengthIndex param a (params.findIdx (fun p => p.name == target)))) ∧
    ((∀ p ∈ params, p.name ≠ target) →
      ∃ m, pairArray params param = Except.error (TransErr.valueError m)) := by
  constructor
  · intro hex
    have hfind : params.findIdx? (fun p => p.name == target) =
        some (params.findIdx (fun p => p.name == target)) := by
      apply List.findIdx?_eq_some_of_exists
      obtain ⟨p, hp, he⟩ := hex
      exact ⟨p, hp, by simp [he]⟩
    simp [pairArray, withLengthIndex, ht, hn, hne, hfind]
  · intro hall
    have hfind : params.findIdx? (fun p => p.name == target) = none := by
      rw [List.findIdx?_eq_none_iff]
      intro p hp
      simp [hall p hp]
    exact ⟨"Unmatched length parameter name " ++ target,
      by simp [pairArray, ht, hn, hne, hfind]⟩

/-- A concrete Array-typed parameter whose length-parameter name is len. -/
def arrParamData : ArrayData :=
  { ctype := "int*", elementType := "int", lengthParamName := some "len" }

def arrParam : Parameter :=
  { name := "data", ptype := TypeRef.array arrParamData, transfer := some "none" }

def lenParam : Parameter :=
  { name := "len", ptype := TypeRef.plain "int" "int", transfer := some "none" }

/-- Claim C4 witness: the length name len resolves to index 1 over the
concrete two-parameter list. -/
theorem c4_witness :
    pairArray [arrParam, lenParam] arrParam =
      Except.ok (withLengthIndex arrParam arrParamData 1) := by
  have h := (c4_length_param_pairing [arrParam, lenParam] arrParam
    arrParamData "len" rfl rfl (by decide)).1
    ⟨lenParam, by simp, rfl⟩
  simpa using h

/-! Claims C9 and C8: name resolution. -/

/-- Helper: when every lookup stage of _resolve_type_name_1 misses over one
registry — the built-in table on both the raw C type and the semantic name,
the registry ctypes, and the prefix-stripped name against aliases, names and
type_names — the resolver raises KeyError. -/
theorem resolveTypeName1_total_miss (st : TState) (typeName : String)
    (ctype : Option String) (names : Names)
    (h1 : ∀ c, ctype = some c → dictGet st.env.builtinTypeNames c = none)
    (h2 : dictGet st.env.builtinTypeNames typeName = none)
    (h3 : ∀ c, ctype = some c → dictGet names.ctypes (removeStars c) = none)
    (h4 : dictGet names.aliases (removePfx st.stripPfx typeName false) = none)
    (h5 : dictGet names.names (removePfx st.stripPfx typeName false) = none)
    (h6 : dictGet names.type_names (removePfx st.stripPfx typeName false) = none) :
    resolveTypeName1 st typeName ctype names =
      Except.error (TransErr.keyError
        ("failed to find " ++ removePfx st.stripPfx typeName false)) := by
  unfold resolveTypeName1
  cases ctype with
  | none => simp [h2, h4, h5, h6]
  | some c => simp [h1 c rfl, h2, h3 c rfl, h4, h5, h6]

/-- Claim C9: when a type name misses every lookup stage (built-in table,
the given include-derived registry and the in-progress transformer
registry), non-strict resolution returns the original name unchanged, and
strict resolution raises the KeyError. -/
theorem c9_total_miss_resolution (st : TState) (typeName : String)
    (ctype : Option String) (names : Names)
    (h1 : ∀ c, ctype = some c → dictGet st.env.builtinTypeNames c = none)
    (h2 : dictGet st.env.builtinTypeNames typeName = none)
    (h3 : ∀ c, ctype = some c → dictGet names.ctypes (removeStars c) = none)
    (h4 : dictGet names.aliases (removePfx st.stripPfx typeName false) = none)
    (h5 : dictGet names.names (removePfx st.stripPfx typeName false) = none)
    (h6 : dictGet names.type_names (removePfx st.stripPfx typeName false) = none)
    (g3 : ∀ c, ctype = some c → dictGet st.names.ctypes (removeStars c) = none)
    (g4 : dictGet st.names.aliases (removePfx st.stripPfx typeName false) = none)
    (g5 : dictGet st.names.names (removePfx st.stripPfx typeName false) = none)
    (g6 : dictGet st.names.type_names (removePfx st.stripPfx typeName false) = none) :
    resolveTypeNameFull st typeName ctype names true = Except.ok typeName ∧
    ∃ m, resolveTypeNameFull st typeName ctype names false =
      Except.error (TransErr.keyError m) := by
  have e1 := resolveTypeName1_total_miss st typeName ctype names h1 h2 h3 h4 h5 h6
  have e2 := resolveTypeName1_total_miss st typeName ctype st.names h1 h2 g3 g4 g5 g6
  constructor
  · simp [resolveTypeNameFull, e1, e2]
  · exact ⟨"failed to find " ++ removePfx st.stripPfx typeName false,
      by simp [resolveTypeNameFull, e1, e2]⟩

/-- Claim C9 witness: a name absent from the concrete built-in table over
empty registries resolves to itself non-strictly and errors strictly. -/
theorem c9_witness :
    resolveTypeNameFull st0 "FooBar" none st0.names true = Except.ok "FooBar" ∧
    ∃ m, resolveTypeNameFull st0 "FooBar" none st0.names false =
      Except.error (TransErr.keyError m) :=
  c9_total_miss_resolution st0 "FooBar" none st0.names
    (by intro c hc; cases hc) rfl (by intro c hc; cases hc)
    rfl rfl rfl
    (by intro c hc; cases hc) rfl rfl rfl

/-- Claim C8: a type name that is already namespace-qualified for an
included namespace — the names mapping holds it under the qualified key as a
pair of that namespace and a node whose rendering reproduces the key, the
built-in table does not shadow it, prefix removal leaves it intact and no
alias shadows it — resolves to itself, so applying resolution twice equals
applying it once. -/
theorem c8_qualified_idempotent (st : TState) (ns : String) (node : Node)
    (names : Names) (allowInvalid : Bool) (tn : String)
    (htn : tn = ns ++ "." ++ nodeName node)
    (hbuiltin : dictGet st.env.builtinTypeNames tn = none)
    (hstrip : removePfx st.stripPfx tn false = tn)
    (halias : dictGet names.aliases tn = none)
    (hname : dictGet names.names tn = some (some ns, node)) :
    resolveTypeNameFull st tn none names allowInvalid = Except.ok tn ∧
    (resolveTypeNameFull st tn none names allowInvalid).bind
      (fun r => resolveTypeNameFull st r none names allowInvalid) =
      resolveTypeNameFull st tn none names allowInvalid := by
  have key : resolveTypeName1 st tn none names =
      Except.ok (ns ++ "." ++ nodeName node) := by
    simp [resolveTypeName1, hstrip, hbuiltin, halias, hname, typepairToStr]
  rw [← htn] at key
  have full : resolveTypeNameFull st tn none names allowInvalid =
      Except.ok tn := by
    simp [resolveTypeNameFull, key]
  refine ⟨full, ?_⟩
  rw [full]
  simpa [Except.bind] using full

/-- A node named Bar of the included namespace Foo. -/
def barNode : Node := Node.aliasNode "Bar" "int" "FooBar"

/-- A registry as merged from an included namespace: the qualified name maps
to the namespace-and-node pair. -/
def includedNames : Names :=
  { names := [("Foo.Bar", (some "Foo", barNode))] }

/-- Claim C8 witness at the concrete included registry. -/
theorem c8_witness :
    resolveTypeNameFull st0 "Foo.Bar" none includedNames true =
      Except.ok "Foo.Bar" ∧
    (resolveTypeNameFull st0 "Foo.Bar" none includedNames true).bind
      (fun r => resolveTypeNameFull st0 r none includedNames true) =
      resolveTypeNameFull st0 "Foo.Bar" none includedNames true :=
  c8_qualified_idempotent st0 "Foo" barNode includedNames true "Foo.Bar"
    rfl rfl (by decide) rfl rfl


/-! Claim C1: transfer tags of produced Function and Callback nodes. -/

/-- A transfer tag resolved to exactly one of the three valid tokens, never
unset. -/
def transferValid (t : Option String) : Prop :=
  t = some "none" ∨ t = some "container" ∨ t = some "full"

/-- Helper: a successful run of the generic option handling either leaves
the transfer field untouched or sets it to a valid token. -/
theorem handleGeneric_ok_valid (t0 : Option String) (i0 : Bool)
    (options : List (String × List String)) (x : Option String) (i : Bool)
    (h : handleGenericParamOptions t0 i0 options = Except.ok (x, i)) :
    x = t0 ∨ transferValid x := by
  unfold handleGenericParamOptions at h
  cases hd : dictGet options "transfer" with
  | none =>
    rw [hd] at h
    simp only [Except.ok.injEq, Prod.mk.injEq] at h
    exact Or.inl h.1.symm
  | some data =>
    rw [hd] at h
    cases data with
    | nil =>
      simp only [Except.ok.injEq, Prod.mk.injEq] at h
      exact Or.inr (Or.inr (Or.inr h.1.symm))
    | cons depth rest =>
      simp only [] at h
      split at h
      · rename_i hv
        simp only [Except.ok.injEq, Prod.mk.injEq] at h
        obtain ⟨h1, _⟩ := h
        simp only [Bool.or_eq_true, beq_iff_eq] at hv
        refine Or.inr ?_
        rcases hv with (hv | hv) | hv <;> simp [transferValid, ← h1, hv]
      · cases h

/-- Helper: one step of the direction option loop, with the folded function
exposed. -/
theorem applyParamOptions_step (q : Parameter) (kv : String × List String)
    (rest : List (String × List String)) :
    applyParamOptions q (kv :: rest) =
      applyParamOptions
        (if kv.1 == "in-out" || kv.1 == "inout" then { q with direction := "inout" }
         else if kv.1 == "in" then { q with direction := "in" }
         else if kv.1 == "out" then { q with direction := "out" }
         else if kv.1 == "allow-none" then { q with allow_none := true }
         else q) rest := by
  simp [applyParamOptions]

/-- Helper: one step of the direction option loop touches neither transfer
field. -/
theorem paramStep_transfer (q : Parameter) (kv : String × List String) :
    (if kv.1 == "in-out" || kv.1 == "inout" then { q with direction := "inout" }
     else if kv.1 == "in" then { q with direction := "in" }
     else if kv.1 == "out" then { q with direction := "out" }
     else if kv.1 == "allow-none" then { q with allow_none := true }
     else q).transfer = q.transfer ∧
    (if kv.1 == "in-out" || kv.1 == "inout" then { q with direction := "inout" }
     else if kv.1 == "in" then { q with direction := "in" }
     else if kv.1 == "out" then { q with direction := "out" }
     else if kv.1 == "allow-none" then { q with allow_none := true }
     else q).transfer_inferred = q.transfer_inferred := by
  refine ⟨?_, ?_⟩ <;> (repeat (first | rfl | split))

/-- Helper: the direction and nullability option loop never touches the
transfer fields of a parameter. -/
theorem applyParamOptions_transfer (p : Parameter)
    (options : List (String × List String)) :
    (applyParamOptions p options).transfer = p.transfer ∧
    (applyParamOptions p options).transfer_inferred = p.transfer_inferred := by
  induction options generalizing p with
  | nil => exact ⟨rfl, rfl⟩
  | cons kv rest ih =>
    rw [applyParamOptions_step]
    obtain ⟨s1, s2⟩ := paramStep_transfer p kv
    obtain ⟨h1, h2⟩ := ih _
    exact ⟨h1.trans s1, h2.trans s2⟩

/-- Helper: a parameter the finishing half returns carries a valid transfer
tag. -/
theorem createParameterFinish_ok_transfer (symbol : SourceSymbol)
    (ptype : TypeRef) (options : List (String × List String)) (p : Parameter)
    (h : createParameterFinish symbol ptype options = Except.ok p) :
    transferValid p.transfer := by
  unfold createParameterFinish at h
  simp only [] at h
  cases hg : handleGenericParamOptions
      (applyParamOptions { name := symbol.ident, ptype := ptype } options).transfer
      (applyParamOptions { name := symbol.ident, ptype := ptype } options).transfer_inferred
      options with
  | error e => rw [hg] at h; cases h
  | ok xi =>
    obtain ⟨x, i⟩ := xi
    rw [hg] at h
    simp only [] at h
    split at h
    · cases h
    · rename_i hne
      simp only [Except.ok.injEq] at h
      subst h
      have hx := handleGeneric_ok_valid _ _ _ _ _ hg
      have hbase := (applyParamOptions_transfer
        { name := symbol.ident, ptype := ptype } options).1
      rcases hx with hx | hx
      · exfalso
        apply hne
        simp [hx, hbase]
      · simpa using hx

/-- Helper: a parameter the builder returns carries a valid transfer tag. -/
theorem createParameter_ok_transfer (st : TState) (symbol : SourceSymbol)
    (optionStrs : List String) (p : Parameter)
    (h : createParameter st symbol optionStrs = Except.ok p) :
    transferValid p.transfer := by
  unfold createParameter at h
  cases hb : createParameterType st symbol (parseOptions optionStrs) with
  | error e => rw [hb] at h; cases h
  | ok pr =>
    rw [hb] at h
    obtain ⟨ptype, options⟩ := pr
    simp only [] at h
    exact createParameterFinish_ok_transfer symbol ptype options p h

/-- Helper: a return value the finishing half returns carries a valid
transfer tag. -/
theorem createReturnFinish_ok_transfer (rtype : TypeRef)
    (optionsMap : List (String × List String)) (r : ReturnData)
    (h : createReturnFinish rtype optionsMap = Except.ok r) :
    transferValid r.transfer := by
  unfold createReturnFinish at h
  cases hg : handleGenericParamOptions none false optionsMap with
  | error e => rw [hg] at h; cases h
  | ok xi =>
    obtain ⟨x, i⟩ := xi
    rw [hg] at h
    simp only [] at h
    split at h
    · cases h
    · rename_i hne
      simp only [Except.ok.injEq] at h
      subst h
      have hx := handleGeneric_ok_valid _ _ _ _ _ hg
      rcases hx with hx | hx
      · exfalso
        apply hne
        simp [hx]
      · simpa using hx

/-- Helper: a return value the builder returns carries a valid transfer
tag. -/
theorem createReturn_ok_transfer (st : TState) (sourceType : Option SourceType)
    (optionStrs : List String) (r : ReturnData)
    (h : createReturn st sourceType optionStrs = Except.ok r) :
    transferValid r.transfer := by
  unfold createReturn at h
  cases hc : createType st sourceType (parseOptions optionStrs) false true with
  | error e => rw [hc] at h; cases h
  | ok pr =>
    rw [hc] at h
    obtain ⟨rtype0, optionsMap⟩ := pr
    simp only [] at h
    cases hr : resolveParamType st rtype0 with
    | error e => rw [hr] at h; cases h
    | ok rtype =>
      rw [hr] at h
      simp only [] at h
      exact createReturnFinish_ok_transfer rtype optionsMap r h

/-- Helper: length pairing never changes the transfer tag. -/
theorem pairArray_transfer (params : List Parameter) (p q : Parameter)
    (h : pairArray params p = Except.ok q) : q.transfer = p.transfer := by
  unfold pairArray at h
  cases hpt : p.ptype with
  | array a =>
    rw [hpt] at h
    simp only [] at h
    cases hn : a.lengthParamName with
    | none =>
      rw [hn] at h
      simp only [Except.ok.injEq] at h
      rw [← h]
    | some target =>
      rw [hn] at h
      simp only [] at h
      split at h
      · simp only [Except.ok.injEq] at h
        rw [← h]
      · cases hf : params.findIdx? (fun r => r.name == target) with
        | none => rw [hf] at h; cases h
        | some idx =>
          rw [hf] at h
          simp only [Except.ok.injEq] at h
          rw [← h]
  | plain n c =>
    rw [hpt] at h
    simp only [Except.ok.injEq] at h
    rw [← h]
  | listT l =>
    rw [hpt] at h
    simp only [Except.ok.injEq] at h
    rw [← h]
  | mapT m =>
    rw [hpt] at h
    simp only [Except.ok.injEq] at h
    rw [← h]
  | varargs =>
    rw [hpt] at h
    simp only [Except.ok.injEq] at h
    rw [← h]

/-- Helper: annotation pairing preserves the transfer tags positionally. -/
theorem pairAnnotationsLoop_transfers (params : List Parameter)
    (seen : List String) (l l2 : List Parameter)
    (h : pairAnnotationsLoop params seen l = Except.ok l2) :
    l2.map (fun p => p.transfer) = l.map (fun p => p.transfer) := by
  induction l generalizing seen l2 with
  | nil =>
    simp only [pairAnnotationsLoop, Except.ok.injEq] at h
    rw [← h]
  | cons p rest ih =>
    unfold pairAnnotationsLoop at h
    by_cases hs : seen.contains p.name = true
    · rw [if_pos hs] at h
      cases h
    · rw [if_neg hs] at h
      cases hp :
          (match p.ptype with
           | TypeRef.array _ => pairArray params p
           | _ => Except.ok p) with
      | error e => rw [hp] at h; cases h
      | ok p2 =>
        rw [hp] at h
        simp only [] at h
        cases hrest : pairAnnotationsLoop params (p.name :: seen) rest with
        | error e => rw [hrest] at h; cases h
        | ok rest2 =>
          rw [hrest] at h
          simp only [Except.ok.injEq] at h
          subst h
          have hp2 : p2.transfer = p.transfer := by
            cases hpt : p.ptype with
            | array a =>
              rw [hpt] at hp
              simp only [] at hp
              exact pairArray_transfer params p p2 hp
            | plain n c =>
              rw [hpt] at hp
              simp only [Except.ok.injEq] at hp
              rw [hp]
            | listT s =>
              rw [hpt] at hp
              simp only [Except.ok.injEq] at hp
              rw [hp]
            | mapT m =>
              rw [hpt] at hp
              simp only [Except.ok.injEq] at hp
              rw [hp]
            | varargs =>
              rw [hpt] at hp
              simp only [Except.ok.injEq] at hp
              rw [hp]
          simp [hp2, ih _ _ hrest]

/-- Helper: every parameter of a successfully built list carries a valid
transfer tag. -/
theorem createParametersLoop_transfers (st : TState)
    (dirs : List (String × List String)) (children : List SourceSymbol)
    (ps : List Parameter)
    (h : createParametersLoop st dirs children = Except.ok ps) :
    ∀ p ∈ ps, transferValid p.transfer := by
  induction children generalizing ps with
  | nil =>
    simp only [createParametersLoop, Except.ok.injEq] at h
    subst h
    simp
  | cons child rest ih =>
    unfold createParametersLoop at h
    cases hc : createParameter st child (dictGetD dirs child.ident []) with
    | error e => rw [hc] at h; cases h
    | ok p =>
      rw [hc] at h
      simp only [] at h
      cases hrest : createParametersLoop st dirs rest with
      | error e => rw [hrest] at h; cases h
      | ok ps2 =>
        rw [hrest] at h
        simp only [Except.ok.injEq] at h
        subst h
        intro q hq
        rcases List.mem_cons.mp hq with hq | hq
        · subst hq
          exact createParameter_ok_transfer _ _ _ _ hc
        · exact ih ps2 hrest q hq

/-- Helper: deprecation propagation touches only the deprecation fields. -/
theorem parseDeprecated_fields (f : FunctionData)
    (directives : List (String × List String)) :
    (parseDeprecated f directives).parameters = f.parameters ∧
    (parseDeprecated f directives).ret = f.ret := by
  unfold parseDeprecated
  cases dictGet directives "deprecated" with
  | none => exact ⟨rfl, rfl⟩
  | some data =>
    cases data with
    | nil => exact ⟨rfl, rfl⟩
    | cons value rest =>
      simp only []
      split <;> exact ⟨rfl, rfl⟩

/-- Claim C1: every Function node and every Callback node the transformer
builds successfully carries, on each of its parameters and on its return, a
transfer tag equal to exactly one of none, container or full — never
unset. -/
theorem c1_transfer_tags (st : TState) (symbol : SourceSymbol) :
    (∀ f, createFunction st symbol = Except.ok f →
      (∀ p ∈ f.parameters, transferValid p.transfer) ∧
        transferValid f.ret.transfer) ∧
    (∀ c, createCallback st symbol = Except.ok c →
      (∀ p ∈ c.parameters, transferValid p.transfer) ∧
        transferValid c.retval.transfer) := by
  constructor
  · intro f h
    unfold createFunction at h
    simp only [] at h
    cases h0 : createParameters st symbol.base symbol.directives with
    | error e => rw [h0] at h; cases h
    | ok parameters0 =>
      rw [h0] at h
      simp only [] at h
      cases h1 : pairAnnotations parameters0 with
      | error e => rw [h1] at h; cases h
      | ok parameters =>
        rw [h1] at h
        simp only [] at h
        cases h2 : createReturn st (symbol.base.bind SourceType.base)
            (dictGetD symbol.directives "return" []) with
        | error e => rw [h2] at h; cases h
        | ok ret =>
          rw [h2] at h
          simp only [Except.ok.injEq] at h
          subst h
          obtain ⟨hpar, hret⟩ := parseDeprecated_fields
            { name := stripNamespaceFunc st symbol.ident, ret := ret,
              parameters := parameters, symbol := symbol.ident }
            symbol.directives
          constructor
          · intro p hp
            rw [hpar] at hp
            have hmap := pairAnnotationsLoop_transfers parameters0 [] parameters0
              parameters h1
            have hmem : p.transfer ∈ parameters.map (fun p => p.transfer) :=
              List.mem_map_of_mem _ hp
            rw [hmap] at hmem
            obtain ⟨q, hq, hqe⟩ := List.mem_map.mp hmem
            have hv := createParametersLoop_transfers st symbol.directives
              (baseChildren symbol.base) parameters0 h0 q hq
            rw [← hqe]
            exact hv
          · rw [hret]
            exact createReturn_ok_transfer _ _ _ _ h2
  · intro c h
    unfold createCallback at h
    simp only [] at h
    cases h2 : createReturn st ((symbol.base.bind SourceType.base).bind SourceType.base)
        (dictGetD symbol.directives "return" []) with
    | error e => rw [h2] at h; cases h
    | ok retval =>
      rw [h2] at h
      simp only [] at h
      cases h0 : createParameters st (symbol.base.bind SourceType.base)
          symbol.directives with
      | error e => rw [h0] at h; cases h
      | ok parameters =>
        rw [h0] at h
        simp only [Except.ok.injEq] at h
        subst h
        constructor
        · intro p hp
          exact createParametersLoop_transfers st symbol.directives
            (baseChildren (symbol.base.bind SourceType.base)) parameters h0 p hp
        · exact createReturn_ok_transfer _ _ _ _ h2

/-- A concrete function declaration with an int parameter and a
const-qualified character-pointer parameter, returning void, with no
annotations. -/
def funcSym0 : SourceSymbol :=
  SourceSymbol.mk "g_foo" CSymbolKind.func
    (some (funcType [paramSym "x" intType, paramSym "s" constCharPtrType]
      voidType))
    0 none []

/-- A concrete callback typedef: pointer to a function of one int parameter
returning void. -/
def cbSym0 : SourceSymbol :=
  SourceSymbol.mk "GFooCallback" CSymbolKind.typedefKind
    (some (SourceType.mk CTypeKind.pointer none false
      (some (funcType [paramSym "x" intType] voidType)) []))
    0 none []

/-- The Function node built from the concrete declaration (the builder
succeeds on it; the fallback arm is never taken). -/
def c1FuncData : FunctionData :=
  match createFunction st0 funcSym0 with
  | .ok f => f
  | .error _ =>
    { name := "", ret := { rtype := TypeRef.varargs }, parameters := [],
      symbol := "" }

/-- The Callback node built from the concrete typedef. -/
def c1CallbackData : CallbackData :=
  match createCallback st0 cbSym0 with
  | .ok c => c
  | .error _ =>
    { name := "", retval := { rtype := TypeRef.varargs }, parameters := [],
      ident := "" }

/-- Claim C1 witness: at the concrete declarations both builders succeed and
every transfer tag of the produced nodes is one of the three valid tokens. -/
theorem c1_witness :
    ((∀ p ∈ c1FuncData.parameters, transferValid p.transfer) ∧
      transferValid c1FuncData.ret.transfer) ∧
    ((∀ p ∈ c1CallbackData.parameters, transferValid p.transfer) ∧
      transferValid c1CallbackData.retval.transfer) :=
  ⟨(c1_transfer_tags st0 funcSym0).1 c1FuncData rfl,
   (c1_transfer_tags st0 cbSym0).2 c1CallbackData rfl⟩

/-! Claim C2: transfer inference for string-shaped types. -/

/-- Helper: mapping the set-key update over a list rewrites exactly the
entries the key lookup would find. -/
theorem find?_map_set {α : Type} (l : List (String × α)) (k : String) (v : α) :
    (l.map (fun kv => if kv.1 == k then (k, v) else kv)).find?
        (fun kv => kv.1 == k) =
      ((l.find? (fun kv => kv.1 == k)).map (fun _ => (k, v))) := by
  induction l with
  | nil => rfl
  | cons kv rest ih =>
    by_cases hk : (kv.1 == k) = true
    · simp only [List.map_cons]
      rw [if_pos hk]
      simp [List.find?_cons, hk]
    · have hk2 : (kv.1 == k) = false := by
        rw [Bool.not_eq_true] at hk
        exact hk
      simp only [List.map_cons]
      rw [if_neg hk]
      simp only [List.find?_cons, hk2]
      exact ih

/-- Helper: looking up a just-set key yields the new value. -/
theorem dictGet_dictSet_same {α : Type} (l : List (String × α)) (k : String)
    (v : α) : dictGet (dictSet l k v) k = some v := by
  unfold dictSet
  split
  · rename_i hsome
    unfold dictGet at hsome ⊢
    rw [find?_map_set]
    cases hf : l.find? (fun kv => kv.1 == k) with
    | none => rw [hf] at hsome; simp at hsome
    | some kv => simp
  · unfold dictGet
    rw [List.find?_append]
    cases hf : l.find? (fun kv => kv.1 == k) with
    | none => simp [hf, List.find?_cons]
    | some kv =>
      rename_i hnone
      exfalso
      apply hnone
      unfold dictGet
      rw [hf]
      simp

/-- Helper: the set-key update leaves lookups of other keys alone, over the
mapped list. -/
theorem find?_map_set_other {α : Type} (l : List (String × α)) (k k2 : String)
    (v : α) (hne : (k == k2) = false) :
    (l.map (fun kv => if kv.1 == k then (k, v) else kv)).find?
        (fun kv => kv.1 == k2) =
      l.find? (fun kv => kv.1 == k2) := by
  induction l with
  | nil => rfl
  | cons kv rest ih =>
    by_cases hk : (kv.1 == k) = true
    · have hkv : kv.1 = k := by simpa using hk
      have h2 : (kv.1 == k2) = false := by rw [hkv]; exact hne
      simp only [List.map_cons]
      rw [if_pos hk]
      simp only [List.find?_cons, hne, h2]
      exact ih
    · simp only [List.map_cons]
      rw [if_neg hk]
      cases hp : (kv.1 == k2) with
      | true => simp [List.find?_cons, hp]
      | false =>
        simp only [List.find?_cons, hp]
        exact ih

/-- Helper: setting one key does not change the lookup of another. -/
theorem dictGet_dictSet_other {α : Type} (l : List (String × α)) (k k2 : String)
    (v : α) (hne : (k == k2) = false) :
    dictGet (dictSet l k v) k2 = dictGet l k2 := by
  unfold dictSet
  split
  · unfold dictGet
    rw [find?_map_set_other l k k2 v hne]
  · unfold dictGet
    rw [List.find?_append]
    cases hf : l.find? (fun kv => kv.1 == k2) with
    | some kv => simp [hf]
    | none => simp [hf, List.find?_cons, hne]

/-- Helper: a present pointee determines the const test of the transfer
heuristics. -/
theorem pointeeConst_of_bind (o : Option SourceType) (b : SourceType)
    (h : o.bind SourceType.base = some b) :
    pointeeConst o = b.constQualified := by
  cases o with
  | none => cases h
  | some st1 =>
    simp only [Option.bind] at h
    unfold pointeeConst
    simp only []
    rw [h]

/-- Helper: _create_type with no explicit transfer on a declaration whose
canonical type is the string type records the const-driven transfer and the
inferred flag in the returned option map. -/
theorem createType_string_inference (st : TState) (sourceType : Option SourceType)
    (options : List (String × List String)) (isParam isRetval : Bool)
    (rt : TypeRef) (opts2 : List (String × List String))
    (hx : dictGet options "transfer" = none)
    (hstr : typeNameFromCtype st.env (createSourceType sourceType) =
      st.env.typeString)
    (h : createType st sourceType options isParam isRetval =
      Except.ok (rt, opts2)) :
    dictGet opts2 "transfer" =
      some [if pointeeConst sourceType then "none" else "full"] ∧
    dictGet opts2 "transfer-inferred" = some [] := by
  unfold createType at h
  simp only [] at h
  split at h
  · cases h
  · split at h
    · cases h
    · cases hb : buildRettype st (createSourceType sourceType) options
          isParam isRetval with
      | error e => rw [hb] at h; cases h
      | ok pr =>
        rw [hb] at h
        obtain ⟨rettype, derefedName⟩ := pr
        simp only [] at h
        split at h
        · rename_i hcond
          have hx1 : dictGet (dictSet options "out" []) "transfer" = none := by
            rw [dictGet_dictSet_other options "out" "transfer" [] (by decide)]
            exact hx
          rw [hx1] at h
          simp only [Option.isSome_none, Bool.false_eq_true, if_false] at h
          simp only [Except.ok.injEq, Prod.mk.injEq] at h
          obtain ⟨_, h2⟩ := h
          subst h2
          constructor
          · rw [dictGet_dictSet_same]
            have hts : (typeNameFromCtype st.env (createSourceType sourceType) ==
                st.env.typeString) = true := by simp [hstr]
            simp only [inferTransfer, hts, if_true]
            cases pointeeConst sourceType <;> simp
          · rw [dictGet_dictSet_other _ "transfer" "transfer-inferred" _ (by decide)]
            rw [dictGet_dictSet_same]
        · rw [hx] at h
          simp only [Option.isSome_none, Bool.false_eq_true, if_false] at h
          simp only [Except.ok.injEq, Prod.mk.injEq] at h
          obtain ⟨_, h2⟩ := h
          subst h2
          constructor
          · rw [dictGet_dictSet_same]
            have hts : (typeNameFromCtype st.env (createSourceType sourceType) ==
                st.env.typeString) = true := by simp [hstr]
            simp only [inferTransfer, hts, if_true]
            cases pointeeConst sourceType <;> simp
          · rw [dictGet_dictSet_other _ "transfer" "transfer-inferred" _ (by decide)]
            rw [dictGet_dictSet_same]

/-- Helper: the parameter finishing half under an inferred transfer entry
with a valid token and the inferred marker present sets exactly those two
fields. -/
theorem createParameterFinish_transfer (symbol : SourceSymbol) (ptype : TypeRef)
    (options : List (String × List String)) (p : Parameter) (tv : String)
    (ht : dictGet options "transfer" = some [tv])
    (hi : dictGet options "transfer-inferred" = some [])
    (hv : (tv == "none" || tv == "container" || tv == "full") = true)
    (h : createParameterFinish symbol ptype options = Except.ok p) :
    p.transfer = some tv ∧ p.transfer_inferred = true := by
  unfold createParameterFinish at h
  simp only [] at h
  have hg : handleGenericParamOptions
      (applyParamOptions { name := symbol.ident, ptype := ptype } options).transfer
      (applyParamOptions { name := symbol.ident, ptype := ptype } options).transfer_inferred
      options = Except.ok (some tv, true) := by
    unfold handleGenericParamOptions
    rw [ht, hi]
    simp [hv]
  rw [hg] at h
  simp only [] at h
  split at h
  · cases h
  · simp only [Except.ok.injEq] at h
    subst h
    exact ⟨rfl, rfl⟩

/-- Claim C2: a non-variadic parameter with no explicit transfer whose
canonical type is the string type and whose declaration has a pointee gets
transfer none when that pointee is const-qualified and full otherwise, and
its transfer-inferred flag is set. -/
theorem c2_string_transfer_inference (st : TState) (symbol : SourceSymbol)
    (optionStrs : List String) (p : Parameter) (b : SourceType)
    (hk : (symbol.kind == CSymbolKind.ellipsis) = false)
    (hx : dictGet (parseOptions optionStrs) "transfer" = none)
    (hstr : typeNameFromCtype st.env (createSourceType symbol.base) =
      st.env.typeString)
    (hb : symbol.base.bind SourceType.base = some b)
    (h : createParameter st symbol optionStrs = Except.ok p) :
    p.transfer = some (if b.constQualified then "none" else "full") ∧
    p.transfer_inferred = true := by
  unfold createParameter at h
  cases hpt : createParameterType st symbol (parseOptions optionStrs) with
  | error e => rw [hpt] at h; cases h
  | ok pr =>
    rw [hpt] at h
    obtain ⟨ptype, options2⟩ := pr
    simp only [] at h
    unfold createParameterType at hpt
    rw [hk] at hpt
    simp only [Bool.false_eq_true, if_false] at hpt
    cases hct : createType st symbol.base (parseOptions optionStrs) true false with
    | error e => rw [hct] at hpt; cases hpt
    | ok pr2 =>
      rw [hct] at hpt
      obtain ⟨t, opts⟩ := pr2
      simp only [] at hpt
      cases hre : resolveParamType st t with
      | error e => rw [hre] at hpt; cases hpt
      | ok t2 =>
        rw [hre] at hpt
        simp only [Except.ok.injEq, Prod.mk.injEq] at hpt
        obtain ⟨hpt1, hpt2⟩ := hpt
        subst hpt2
        obtain ⟨ho1, ho2⟩ := createType_string_inference st symbol.base
          (parseOptions optionStrs) true false t opts hx hstr hct
        rw [pointeeConst_of_bind symbol.base b hb] at ho1
        have hvv : ((if b.constQualified then "none" else "full") == "none" ||
            (if b.constQualified then "none" else "full") == "container" ||
            (if b.constQualified then "none" else "full") == "full") = true := by
          cases b.constQualified <;> simp
        exact createParameterFinish_transfer symbol ptype opts p _ ho1 ho2 hvv h

/-- The parameter built from an unannotated const character pointer. -/
def c2ConstParam : Parameter :=
  match createParameter st0 (paramSym "s" constCharPtrType) [] with
  | .ok p => p
  | .error _ => { name := "", ptype := TypeRef.varargs }

/-- The parameter built from an unannotated non-const character pointer. -/
def c2FullParam : Parameter :=
  match createParameter st0 (paramSym "s" charPtrType) [] with
  | .ok p => p
  | .error _ => { name := "", ptype := TypeRef.varargs }

/-- Claim C2 witness: at the concrete character-pointer declarations the
const-qualified pointee infers transfer none, the unqualified one infers
transfer full, and both set the inferred flag. -/
theorem c2_witness :
    (c2ConstParam.transfer = some "none" ∧
      c2ConstParam.transfer_inferred = true) ∧
    (c2FullParam.transfer = some "full" ∧
      c2FullParam.transfer_inferred = true) := by
  constructor
  · have h := c2_string_transfer_inference st0 (paramSym "s" constCharPtrType)
      [] c2ConstParam constCharType rfl rfl rfl rfl rfl
    simpa using h
  · have h := c2_string_transfer_inference st0 (paramSym "s" charPtrType)
      [] c2FullParam charType rfl rfl rfl rfl rfl
    simpa using h

/-! Claims C3 and C5: skip signals and hard errors during function
building. The lemmas below establish which failures each building stage can
produce when a declaration carries no annotations. -/

/-- Helper: the one-registry lookup chain fails only with a KeyError. -/
theorem resolveTypeName1_err (st : TState) (typeName : String)
    (ctype : Option String) (names : Names) (e : TransErr)
    (h : resolveTypeName1 st typeName ctype names = Except.error e) :
    ∃ m, e = TransErr.keyError m := by
  unfold resolveTypeName1 at h
  simp only [] at h
  cases hc :
      (match ctype with
       | some ct =>
         if (ct != "") = true then dictGet st.env.builtinTypeNames ct else none
       | none => none) with
  | some v => rw [hc] at h; cases h
  | none =>
    rw [hc] at h
    simp only [] at h
    cases h2 : dictGet st.env.builtinTypeNames typeName with
    | some v => rw [h2] at h; cases h
    | none =>
      rw [h2] at h
      simp only [] at h
      cases h3 :
          (match ctype with
           | some ct =>
             if (ct != "") = true then
               dictGet names.ctypes (removeStars ct)
             else none
           | none => none) with
      | some pr => rw [h3] at h; cases h
      | none =>
        rw [h3] at h
        simp only [] at h
        cases h4 : dictGet names.aliases (removePfx st.stripPfx typeName false) with
        | some pr => rw [h4] at h; cases h
        | none =>
          rw [h4] at h
          simp only [] at h
          cases h5 : dictGet names.names (removePfx st.stripPfx typeName false) with
          | some pr => rw [h5] at h; cases h
          | none =>
            rw [h5] at h
            simp only [] at h
            cases h6 : dictGet names.type_names (removePfx st.stripPfx typeName false) with
            | some pr => rw [h6] at h; cases h
            | none =>
              rw [h6] at h
              simp only [Except.error.injEq] at h
              exact ⟨_, h.symm⟩

/-- Helper: non-strict resolution of a name never fails. -/
theorem resolveTypeNameFull_total (st : TState) (typeName : String)
    (ctype : Option String) (names : Names) :
    ∃ v, resolveTypeNameFull st typeName ctype names true = Except.ok v := by
  unfold resolveTypeNameFull
  cases h1 : resolveTypeName1 st typeName ctype names with
  | ok v => exact ⟨v, rfl⟩
  | error e =>
    obtain ⟨m, hm⟩ := resolveTypeName1_err st typeName ctype names e h1
    subst hm
    simp only []
    cases h2 : resolveTypeName1 st typeName ctype st.names with
    | ok v => exact ⟨v, rfl⟩
    | error e2 =>
      obtain ⟨m2, hm2⟩ := resolveTypeName1_err st typeName ctype st.names e2 h2
      subst hm2
      exact ⟨typeName, by simp⟩

/-- A Map reference whose key and value slots are consistently filled; every
other reference is unconstrained. The builders only ever produce consistent
maps, and on them non-strict recursive resolution never fails. -/
def mapShapeOk : TypeRef → Prop
  | TypeRef.mapT m => m.keyType = none ∨ m.valueType.isSome = true
  | _ => True

/-- Helper: non-strict recursive resolution succeeds on every reference
whose Map slots are consistent. -/
theorem resolveParamType_total (st : TState) (t : TypeRef)
    (hgood : mapShapeOk t) :
    ∃ t2, resolveParamType st t = Except.ok t2 := by
  have main : ∃ t2, resolveParamTypeFull st st.names true t = Except.ok t2 := by
    cases t with
    | plain n c =>
      obtain ⟨v, hv⟩ := resolveTypeNameFull_total st n (some c) st.names
      refine ⟨TypeRef.plain v c, ?_⟩
      unfold resolveParamTypeFull
      simp only []
      rw [hv]
      rfl
    | array a =>
      obtain ⟨v, hv⟩ := resolveTypeNameFull_total st a.name (some a.ctype) st.names
      obtain ⟨w, hw⟩ := resolveTypeNameFull_total st a.elementType none st.names
      refine ⟨TypeRef.array { a with name := v, elementType := w }, ?_⟩
      unfold resolveParamTypeFull
      simp only []
      rw [hv]
      simp only []
      rw [hw]
    | listT l =>
      obtain ⟨v, hv⟩ := resolveTypeNameFull_total st l.name (some l.ctype) st.names
      cases he : l.elementType with
      | none =>
        refine ⟨TypeRef.listT { l with name := v }, ?_⟩
        unfold resolveParamTypeFull
        simp only []
        rw [hv]
        simp only []
        rw [he]
      | some el =>
        obtain ⟨w, hw⟩ := resolveTypeNameFull_total st el none st.names
        refine ⟨TypeRef.listT { l with name := v, elementType := some w }, ?_⟩
        unfold resolveParamTypeFull
        simp only []
        rw [hv]
        simp only []
        rw [he]
        simp only []
        rw [hw]
    | mapT m =>
      obtain ⟨v, hv⟩ := resolveTypeNameFull_total st m.name (some m.ctype) st.names
      cases hkk : m.keyType with
      | none =>
        refine ⟨TypeRef.mapT { m with name := v }, ?_⟩
        unfold resolveParamTypeFull
        simp only []
        rw [hv]
        simp only []
        rw [hkk]
      | some k =>
        obtain ⟨w, hw⟩ := resolveTypeNameFull_total st k none st.names
        cases hvv : m.valueType with
        | none =>
          exfalso
          unfold mapShapeOk at hgood
          rcases hgood with hg | hg
          · rw [hkk] at hg; cases hg
          · rw [hvv] at hg; cases hg
        | some vv =>
          obtain ⟨u, hu⟩ := resolveTypeNameFull_total st vv none st.names
          refine ⟨TypeRef.mapT
            { m with name := v, keyType := some w, valueType := some u }, ?_⟩
          unfold resolveParamTypeFull
          simp only []
          rw [hv]
          simp only []
          rw [hkk]
          simp only []
          rw [hw]
          simp only []
          rw [hvv]
          simp only []
          rw [hu]
    | varargs => exact ⟨.varargs, rfl⟩
  obtain ⟨t2, ht2⟩ := main
  refine ⟨t2, ?_⟩
  unfold resolveParamType
  rw [ht2]

/-- Helper: every Map reference the container dispatch builds has
consistently filled slots, whatever the options. -/
theorem buildRettype_mapShape (st : TState) (ctype : String)
    (options : List (String × List String)) (isParam isRetval : Bool)
    (t : TypeRef) (d : String)
    (h : buildRettype st ctype options isParam isRetval = Except.ok (t, d)) :
    mapShapeOk t := by
  unfold buildRettype at h
  split at h
  · simp only [Except.ok.injEq, Prod.mk.injEq] at h
    rw [← h.1]
    trivial
  · split at h
    · split at h
      · simp only [Except.ok.injEq, Prod.mk.injEq] at h
        rw [← h.1]
        simp [mapShapeOk]
      · cases h
      · simp only [Except.ok.injEq, Prod.mk.injEq] at h
        rw [← h.1]
        simp [mapShapeOk]
    · split at h
      · simp only [] at h
        cases hb : buildArrayOpts (dictGetD options "array" []) with
        | error e => rw [hb] at h; cases h
        | ok aopts =>
          rw [hb] at h
          simp only [Except.ok.injEq, Prod.mk.injEq] at h
          rw [← h.1]
          trivial
      · simp only [Except.ok.injEq, Prod.mk.injEq] at h
        rw [← h.1]
        trivial

/-- Helper: with an empty option map the container dispatch always
succeeds. -/
theorem buildRettype_empty_ok (st : TState) (ctype : String)
    (isParam isRetval : Bool) :
    ∃ r, buildRettype st ctype [] isParam isRetval = Except.ok r := by
  unfold buildRettype
  split
  · exact ⟨_, rfl⟩
  · split
    · exact ⟨_, rfl⟩
    · split
      · exact ⟨_, rfl⟩
      · exact ⟨_, rfl⟩

/-- Helper: the inference chain only ever produces the two singleton
answers. -/
theorem inferTransfer_valid (env : AstEnv) (options : List (String × List String))
    (canontype : String) (sourceType : Option SourceType) (isParam : Bool) :
    inferTransfer env options canontype sourceType isParam = ["none"] ∨
    inferTransfer env options canontype sourceType isParam = ["full"] := by
  unfold inferTransfer
  split
  · split
    · exact Or.inl rfl
    · exact Or.inr rfl
  · split
    · exact Or.inl rfl
    · split
      · exact Or.inl rfl
      · split
        · exact Or.inl rfl
        · split
          · split
            · exact Or.inr rfl
            · exact Or.inl rfl
          · split
            · exact Or.inl rfl
            · exact Or.inr rfl

theorem parseOptions_nil : parseOptions [] = [] := rfl

/-- Helper: a declaration rendering to the variadic-list or file-handle type
makes _create_type signal skip, whatever the options and context. -/
theorem createType_skip (st : TState) (stb : Option SourceType)
    (options : List (String × List String)) (isParam isRetval : Bool)
    (hr : createSourceType stb = "va_list" ∨ createSourceType stb = "FILE*") :
    createType st stb options isParam isRetval = Except.error TransErr.skip := by
  unfold createType
  rcases hr with hr | hr <;> simp [hr]

/-- Helper: with no options, the only failure _create_type can signal is the
skip. -/
theorem createType_err_skip_empty (st : TState) (stb : Option SourceType)
    (isParam isRetval : Bool) (e : TransErr)
    (h : createType st stb [] isParam isRetval = Except.error e) :
    e = TransErr.skip := by
  unfold createType at h
  simp only [] at h
  split at h
  · simp only [Except.error.injEq] at h
    exact h.symm
  · split at h
    · simp only [Except.error.injEq] at h
      exact h.symm
    · obtain ⟨r, hr⟩ := buildRettype_empty_ok st (createSourceType stb) isParam isRetval
      obtain ⟨t, d⟩ := r
      rw [hr] at h
      simp only [] at h
      split at h <;> split at h <;> cases h

/-- Helper: the reference a successful _create_type returns is the one the
container dispatch built. -/
theorem createType_ok_buildRettype (st : TState) (stb : Option SourceType)
    (options0 : List (String × List String)) (isParam isRetval : Bool)
    (t : TypeRef) (opts : List (String × List String))
    (h : createType st stb options0 isParam isRetval = Except.ok (t, opts)) :
    ∃ d, buildRettype st (createSourceType stb) options0 isParam isRetval =
      Except.ok (t, d) := by
  unfold createType at h
  simp only [] at h
  split at h
  · cases h
  · split at h
    · cases h
    · cases hb : buildRettype st (createSourceType stb) options0 isParam isRetval with
      | error e => rw [hb] at h; cases h
      | ok pr =>
        obtain ⟨t0, d⟩ := pr
        rw [hb] at h
        simp only [] at h
        refine ⟨d, ?_⟩
        split at h <;> split at h <;>
          (simp only [Except.ok.injEq, Prod.mk.injEq] at h; rw [← h.1])

/-- Helper: the inferred transfer entry is always one of the two singleton
answers once set. -/
theorem dictGet_set_inferTransfer (env : AstEnv)
    (x : List (String × List String)) (canontype : String)
    (stb : Option SourceType) (isParam : Bool) :
    ∃ tv, dictGet (dictSet x "transfer" (inferTransfer env x canontype stb isParam))
        "transfer" = some [tv] ∧ (tv = "none" ∨ tv = "full") := by
  rcases inferTransfer_valid env x canontype stb isParam with hv | hv <;> rw [hv]
  · exact ⟨"none", by rw [dictGet_dictSet_same], Or.inl rfl⟩
  · exact ⟨"full", by rw [dictGet_dictSet_same], Or.inr rfl⟩

/-- Helper: with no options a successful _create_type records an inferred
transfer of none or full. -/
theorem createType_empty_transfer (st : TState) (stb : Option SourceType)
    (isParam isRetval : Bool) (t : TypeRef)
    (opts : List (String × List String))
    (h : createType st stb [] isParam isRetval = Except.ok (t, opts)) :
    ∃ tv, dictGet opts "transfer" = some [tv] ∧ (tv = "none" ∨ tv = "full") := by
  unfold createType at h
  simp only [] at h
  split at h
  · cases h
  · split at h
    · cases h
    · cases hb : buildRettype st (createSourceType stb) [] isParam isRetval with
      | error e => rw [hb] at h; cases h
      | ok pr =>
        obtain ⟨t0, d⟩ := pr
        rw [hb] at h
        simp only [] at h
        split at h
        · split at h
          · rename_i hsome
            exact absurd hsome (by decide)
          · simp only [Except.ok.injEq, Prod.mk.injEq] at h
            obtain ⟨h1, h2⟩ := h
            subst h2
            exact dictGet_set_inferTransfer st.env _ _ _ _
        · split at h
          · rename_i hsome
            exact absurd hsome (by decide)
          · simp only [Except.ok.injEq, Prod.mk.injEq] at h
            obtain ⟨h1, h2⟩ := h
            subst h2
            exact dictGet_set_inferTransfer st.env _ _ _ _

/-- Helper: the finishing half succeeds when the option map carries an
inferred transfer of none or full. -/
theorem createParameterFinish_ok_exists (symbol : SourceSymbol)
    (ptype : TypeRef) (options : List (String × List String)) (tv : String)
    (ht : dictGet options "transfer" = some [tv])
    (hv : tv = "none" ∨ tv = "full") :
    ∃ p, createParameterFinish symbol ptype options = Except.ok p := by
  have hvb : (tv == "none" || tv == "container" || tv == "full") = true := by
    rcases hv with hv | hv <;> subst hv <;> decide
  have hg : handleGenericParamOptions
      (applyParamOptions { name := symbol.ident, ptype := ptype } options).transfer
      (applyParamOptions { name := symbol.ident, ptype := ptype } options).transfer_inferred
      options = Except.ok (some tv,
        if (dictGet options "transfer-inferred").isSome then true
        else (applyParamOptions { name := symbol.ident, ptype := ptype }
          options).transfer_inferred) := by
    unfold handleGenericParamOptions
    rw [ht]
    simp [hvb]
  unfold createParameterFinish
  simp only []
  rw [hg]
  simp only []
  split
  · rename_i hcontra
    exfalso
    simp at hcontra
  · exact ⟨_, rfl⟩

/-- Helper: an ellipsis parameter with no annotations always builds, with
transfer defaulted. -/
theorem createParameter_ellipsis (st : TState) (child : SourceSymbol)
    (hk : (child.kind == CSymbolKind.ellipsis) = true) :
    ∃ p, createParameter st child [] = Except.ok p := by
  refine ⟨{ name := child.ident, ptype := TypeRef.varargs,
            transfer := some "none" }, ?_⟩
  unfold createParameter createParameterType
  simp only [parseOptions_nil]
  rw [hk]
  rfl

/-- Helper: with no annotations, building one parameter either succeeds or
signals skip — never a hard error. -/
theorem createParameter_empty (st : TState) (child : SourceSymbol) :
    createParameter st child [] = Except.error TransErr.skip ∨
    ∃ p, createParameter st child [] = Except.ok p := by
  by_cases hk : (child.kind == CSymbolKind.ellipsis) = true
  · exact Or.inr (createParameter_ellipsis st child hk)
  · have hk2 : (child.kind == CSymbolKind.ellipsis) = false := by
      rw [Bool.not_eq_true] at hk
      exact hk
    cases hct : createType st child.base [] true false with
    | error e =>
      have he := createType_err_skip_empty st child.base true false e hct
      subst he
      have hcpt : createParameterType st child [] =
          Except.error TransErr.skip := by
        unfold createParameterType
        rw [hk2]
        simp only [Bool.false_eq_true, if_false]
        rw [hct]
      refine Or.inl ?_
      unfold createParameter
      simp only [parseOptions_nil]
      rw [hcpt]
    | ok pr =>
      obtain ⟨t, opts⟩ := pr
      obtain ⟨d, hbr⟩ := createType_ok_buildRettype st child.base [] true false
        t opts hct
      have hshape := buildRettype_mapShape st (createSourceType child.base) []
        true false t d hbr
      obtain ⟨t2, ht2⟩ := resolveParamType_total st t hshape
      obtain ⟨tv, htv, hv⟩ := createType_empty_transfer st child.base true false
        t opts hct
      obtain ⟨p, hp⟩ := createParameterFinish_ok_exists child t2 opts tv htv hv
      have hcpt : createParameterType st child [] = Except.ok (t2, opts) := by
        unfold createParameterType
        rw [hk2]
        simp only [Bool.false_eq_true, if_false]
        rw [hct]
        simp only []
        rw [ht2]
      refine Or.inr ⟨p, ?_⟩
      unfold createParameter
      simp only [parseOptions_nil]
      rw [hcpt]
      exact hp

/-- Helper: a non-ellipsis parameter whose type renders to the variadic-list
or file-handle type signals skip whatever its annotations. -/
theorem createParameter_render_skip (st : TState) (child : SourceSymbol)
    (optionStrs : List String)
    (hk2 : (child.kind == CSymbolKind.ellipsis) = false)
    (hr : createSourceType child.base = "va_list" ∨
      createSourceType child.base = "FILE*") :
    createParameter st child optionStrs = Except.error TransErr.skip := by
  have hct := createType_skip st child.base (parseOptions optionStrs) true false hr
  have hcpt : createParameterType st child (parseOptions optionStrs) =
      Except.error TransErr.skip := by
    unfold createParameterType
    rw [hk2]
    simp only [Bool.false_eq_true, if_false]
    rw [hct]
  unfold createParameter
  rw [hcpt]

theorem dictGetD_nil {α : Type} (k : String) (d : α) :
    dictGetD ([] : List (String × α)) k d = d := rfl

/-- Helper: with no annotations the parameter loop either succeeds or
signals skip. -/
theorem createParametersLoop_empty_dirs (st : TState)
    (children : List SourceSymbol) :
    createParametersLoop st [] children = Except.error TransErr.skip ∨
    ∃ ps, createParametersLoop st [] children = Except.ok ps := by
  induction children with
  | nil => exact Or.inr ⟨[], rfl⟩
  | cons child rest ih =>
    unfold createParametersLoop
    simp only [dictGetD_nil]
    rcases createParameter_empty st child with hc | ⟨p, hp⟩
    · rw [hc]
      exact Or.inl rfl
    · rw [hp]
      simp only []
      rcases ih with hr | ⟨ps, hps⟩
      · rw [hr]
        exact Or.inl rfl
      · rw [hps]
        exact Or.inr ⟨p :: ps, rfl⟩

/-- Helper: with no annotations, a parameter list containing a non-ellipsis
child rendering to the variadic-list or file-handle type signals skip. -/
theorem createParametersLoop_skip (st : TState) (children : List SourceSymbol)
    (hx : ∃ child ∈ children, (child.kind == CSymbolKind.ellipsis) = false ∧
      (createSourceType child.base = "va_list" ∨
        createSourceType child.base = "FILE*")) :
    createParametersLoop st [] children = Except.error TransErr.skip := by
  induction children with
  | nil => simp at hx
  | cons child rest ih =>
    obtain ⟨w, hw, hwk, hwr⟩ := hx
    unfold createParametersLoop
    simp only [dictGetD_nil]
    rcases List.mem_cons.mp hw with heq | hmem
    · subst heq
      rw [createParameter_render_skip st w [] hwk hwr]
    · rcases createParameter_empty st child with hc | ⟨p, hp⟩
      · rw [hc]
      · rw [hp]
        simp only []
        rw [ih ⟨w, hmem, hwk, hwr⟩]

/-- Helper: a function declaration with no annotations among whose
parameter types one renders to the variadic-list or file-handle type makes
the function builder signal skip. -/
theorem createFunction_skip (st : TState) (symbol : SourceSymbol)
    (hd : symbol.directives = [])
    (hx : ∃ child ∈ baseChildren symbol.base,
      (child.kind == CSymbolKind.ellipsis) = false ∧
      (createSourceType child.base = "va_list" ∨
        createSourceType child.base = "FILE*")) :
    createFunction st symbol = Except.error TransErr.skip := by
  have hloop := createParametersLoop_skip st (baseChildren symbol.base) hx
  unfold createFunction
  simp only [hd]
  unfold createParameters
  rw [hloop]

/-- A typedef declaration whose type renders to the variadic-argument-list
type. -/
def vaListTypedefSym : SourceSymbol :=
  SourceSymbol.mk "foo" CSymbolKind.typedefKind (some vaListType) 0 none []

/-- Claim C5 counterexample: a typedef declaration whose type renders to
va_list produces an Alias node, and parsing it grows the namespace node
count from zero to one — the claim fails for non-function declaration
kinds. -/
theorem c5_counterexample :
    createSourceType vaListTypedefSym.base = "va_list" ∧
    st0.nodes.length = 0 ∧
    (parseSymbols 2 st0 [vaListTypedefSym]).map (fun s => s.nodes.length) =
      Except.ok 1 := by
  exact ⟨rfl, rfl, rfl⟩

/-- Claim C5 amended: for every function declaration with no annotations
among whose parameter types one renders to the variadic-argument-list or
file-handle type, traversal absorbs the skip signal: no node is produced
and the parse leaves the transformer state, node count included,
unchanged. -/
theorem c5_function_skip_no_node (fuel : Nat) (st : TState)
    (symbol : SourceSymbol)
    (hk : symbol.kind = CSymbolKind.func)
    (hd : symbol.directives = [])
    (hx : ∃ child ∈ baseChildren symbol.base,
      (child.kind == CSymbolKind.ellipsis) = false ∧
      (createSourceType child.base = "va_list" ∨
        createSourceType child.base = "FILE*")) :
    traverseOne (fuel + 1) st symbol none = Except.ok (none, st) ∧
    parseSymbols (fuel + 1) st [symbol] = Except.ok st := by
  have hf := createFunction_skip st symbol hd hx
  have ht : traverseOne (fuel + 1) st symbol none = Except.ok (none, st) := by
    unfold traverseOne traverseStep
    simp only [Option.getD_none, hk]
    rw [hf]
  refine ⟨ht, ?_⟩
  unfold parseSymbols
  rw [ht]
  simp only []
  unfold parseSymbols
  rfl

/-- A function declaration with an int parameter and a va_list parameter. -/
def vaFuncSym : SourceSymbol :=
  SourceSymbol.mk "g_bar" CSymbolKind.func
    (some (funcType [paramSym "x" intType, paramSym "v" vaListType] voidType))
    0 none []

/-- Claim C5 witness: the concrete function declaration with a va_list
parameter traverses to no node and leaves the state unchanged. -/
theorem c5_witness :
    traverseOne 1 st0 vaFuncSym none = Except.ok (none, st0) ∧
    parseSymbols 1 st0 [vaFuncSym] = Except.ok st0 :=
  c5_function_skip_no_node 0 st0 vaFuncSym rfl rfl
    ⟨paramSym "v" vaListType,
      List.mem_cons_of_mem _ (List.mem_cons_self _ _), rfl, Or.inl rfl⟩

/-- Helper: one step of the direction option loop does not change the
parameter name. -/
theorem paramStep_name (q : Parameter) (kv : String × List String) :
    (if kv.1 == "in-out" || kv.1 == "inout" then { q with direction := "inout" }
     else if kv.1 == "in" then { q with direction := "in" }
     else if kv.1 == "out" then { q with direction := "out" }
     else if kv.1 == "allow-none" then { q with allow_none := true }
     else q).name = q.name := by
  repeat (first | rfl | split)

/-- Helper: the direction option loop never touches the parameter name. -/
theorem applyParamOptions_name (p : Parameter)
    (options : List (String × List String)) :
    (applyParamOptions p options).name = p.name := by
  induction options generalizing p with
  | nil => rfl
  | cons kv rest ih =>
    rw [applyParamOptions_step]
    exact (ih _).trans (paramStep_name p kv)

/-- Helper: the finishing half names the parameter after the declaration
identifier. -/
theorem createParameterFinish_ok_name (symbol : SourceSymbol) (ptype : TypeRef)
    (options : List (String × List String)) (p : Parameter)
    (h : createParameterFinish symbol ptype options = Except.ok p) :
    p.name = symbol.ident := by
  unfold createParameterFinish at h
  simp only [] at h
  cases hg : handleGenericParamOptions
      (applyParamOptions { name := symbol.ident, ptype := ptype } options).transfer
      (applyParamOptions { name := symbol.ident, ptype := ptype } options).transfer_inferred
      options with
  | error e => rw [hg] at h; cases h
  | ok xi =>
    obtain ⟨x, i⟩ := xi
    rw [hg] at h
    simp only [] at h
    split at h
    · cases h
    · simp only [Except.ok.injEq] at h
      subst h
      simpa using applyParamOptions_name
        { name := symbol.ident, ptype := ptype } options

/-- Helper: a built parameter is named after its declaration identifier. -/
theorem createParameter_ok_name (st : TState) (symbol : SourceSymbol)
    (optionStrs : List String) (p : Parameter)
    (h : createParameter st symbol optionStrs = Except.ok p) :
    p.name = symbol.ident := by
  unfold createParameter at h
  cases hb : createParameterType st symbol (parseOptions optionStrs) with
  | error e => rw [hb] at h; cases h
  | ok pr =>
    rw [hb] at h
    obtain ⟨ptype, options⟩ := pr
    simp only [] at h
    exact createParameterFinish_ok_name symbol ptype options p h

/-- Helper: the parameter loop names its output after the child
identifiers, in order. -/
theorem createParametersLoop_names (st : TState)
    (dirs : List (String × List String)) (children : List SourceSymbol)
    (ps : List Parameter)
    (h : createParametersLoop st dirs children = Except.ok ps) :
    ps.map (fun p => p.name) = children.map SourceSymbol.ident := by
  induction children generalizing ps with
  | nil =>
    simp only [createParametersLoop, Except.ok.injEq] at h
    subst h
    rfl
  | cons child rest ih =>
    unfold createParametersLoop at h
    cases hc : createParameter st child (dictGetD dirs child.ident []) with
    | error e => rw [hc] at h; cases h
    | ok p =>
      rw [hc] at h
      simp only [] at h
      cases hrest : createParametersLoop st dirs rest with
      | error e => rw [hrest] at h; cases h
      | ok ps2 =>
        rw [hrest] at h
        simp only [Except.ok.injEq] at h
        subst h
        simp only [List.map_cons]
        rw [createParameter_ok_name st child _ p hc, ih ps2 hrest]

/-- Helper: length pairing fails only with the ValueError. -/
theorem pairArray_error (params : List Parameter) (p : Parameter) (e : TransErr)
    (h : pairArray params p = Except.error e) :
    ∃ m, e = TransErr.valueError m := by
  unfold pairArray at h
  cases hpt : p.ptype with
  | array a =>
    rw [hpt] at h
    simp only [] at h
    cases hn : a.lengthParamName with
    | none => rw [hn] at h; cases h
    | some target =>
      rw [hn] at h
      simp only [] at h
      split at h
      · cases h
      · cases hf : params.findIdx? (fun r => r.name == target) with
        | some i => rw [hf] at h; cases h
        | none =>
          rw [hf] at h
          simp only [Except.error.injEq] at h
          exact ⟨_, h.symm⟩
  | plain n c => rw [hpt] at h; simp only [] at h; cases h
  | listT l => rw [hpt] at h; simp only [] at h; cases h
  | mapT m => rw [hpt] at h; simp only [] at h; cases h
  | varargs => rw [hpt] at h; simp only [] at h; cases h

/-- Helper: annotation pairing raises the hard ValueError whenever the
parameter names to come contain a duplicate or revisit a name already
seen. -/
theorem pairAnnotationsLoop_dup (params : List Parameter) (seen : List String)
    (l : List Parameter)
    (hdup : ¬ (l.map (fun p => p.name)).Nodup ∨ ∃ p ∈ l, p.name ∈ seen) :
    ∃ m, pairAnnotationsLoop params seen l =
      Except.error (TransErr.valueError m) := by
  induction l generalizing seen with
  | nil =>
    rcases hdup with hd | ⟨p, hp, _⟩
    · simp at hd
    · cases hp
  | cons p rest ih =>
    unfold pairAnnotationsLoop
    by_cases hs : seen.contains p.name = true
    · rw [if_pos hs]
      exact ⟨_, rfl⟩
    · rw [if_neg hs]
      have hs2 : p.name ∉ seen := fun hmem =>
        hs (List.elem_eq_true_of_mem hmem)
      have hrest : ¬ (rest.map (fun p => p.name)).Nodup ∨
          ∃ q ∈ rest, q.name ∈ (p.name :: seen) := by
        rcases hdup with hd | ⟨q, hq, hqs⟩
        · rw [List.map_cons, List.nodup_cons] at hd
          by_cases hmem : p.name ∈ rest.map (fun p => p.name)
          · obtain ⟨q, hq, hqe⟩ := List.mem_map.mp hmem
            exact Or.inr ⟨q, hq, by rw [hqe]; exact List.mem_cons_self _ _⟩
          · refine Or.inl ?_
            intro hnd
            exact hd ⟨hmem, hnd⟩
        · rcases List.mem_cons.mp hq with heq | hmem
          · subst heq
            exact absurd hqs hs2
          · exact Or.inr ⟨q, hmem, List.mem_cons_of_mem _ hqs⟩
      obtain ⟨m2, hm2⟩ := ih (p.name :: seen) hrest
      cases hpt : p.ptype with
      | array a =>
        simp only []
        cases hpa : pairArray params p with
        | error e =>
          obtain ⟨m, hm⟩ := pairArray_error params p e hpa
          subst hm
          exact ⟨m, rfl⟩
        | ok p2 =>
          simp only []
          rw [hm2]
          exact ⟨m2, rfl⟩
      | plain n c =>
        simp only []
        rw [hm2]
        exact ⟨m2, rfl⟩
      | listT s =>
        simp only []
        rw [hm2]
        exact ⟨m2, rfl⟩
      | mapT mm =>
        simp only []
        rw [hm2]
        exact ⟨m2, rfl⟩
      | varargs =>
        simp only []
        rw [hm2]
        exact ⟨m2, rfl⟩

/-- A function declaration with two parameters named path and a third
va_list parameter. -/
def dupSkipSym : SourceSymbol :=
  SourceSymbol.mk "g_dup" CSymbolKind.func
    (some (funcType [paramSym "path" intType, paramSym "path" intType,
      paramSym "v" vaListType] voidType))
    0 none []

/-- Claim C3 counterexample: a function declaration in which two parameters
share the name path but whose parameter list also holds a va_list parameter
signals skip before the duplicate check runs — no hard validation error is
raised and traversal continues, absorbing the declaration silently. -/
theorem c3_counterexample :
    (baseChildren dupSkipSym.base).map SourceSymbol.ident =
      ["path", "path", "v"] ∧
    createFunction st0 dupSkipSym = Except.error TransErr.skip ∧
    traverseOne 1 st0 dupSkipSym none = Except.ok (none, st0) := by
  exact ⟨rfl, rfl, rfl⟩

/-- Claim C3 amended: for every function declaration whose parameters build
successfully and in which two parameters share the same name, building the
Function raises a hard ValueError and no Function node is produced. -/
theorem c3_duplicate_param_error (st : TState) (symbol : SourceSymbol)
    (params0 : List Parameter)
    (hok : createParameters st symbol.base symbol.directives = Except.ok params0)
    (hdup : ¬ ((baseChildren symbol.base).map SourceSymbol.ident).Nodup) :
    ∃ m, createFunction st symbol = Except.error (TransErr.valueError m) := by
  have hnames := createParametersLoop_names st symbol.directives
    (baseChildren symbol.base) params0 hok
  have hdup2 : ¬ (params0.map (fun p => p.name)).Nodup := by
    rw [hnames]
    exact hdup
  obtain ⟨m, hm⟩ := pairAnnotationsLoop_dup params0 [] params0 (Or.inl hdup2)
  refine ⟨m, ?_⟩
  unfold createFunction
  simp only []
  rw [hok]
  simp only []
  unfold pairAnnotations
  rw [hm]

/-- A function declaration with two int parameters both named path. -/
def dupIntSym : SourceSymbol :=
  SourceSymbol.mk "g_dup2" CSymbolKind.func
    (some (funcType [paramSym "path" intType, paramSym "path" intType]
      voidType))
    0 none []

/-- The parameters of the duplicate-name declaration, which build fine. -/
def c3Params : List Parameter :=
  match createParameters st0 dupIntSym.base dupIntSym.directives with
  | .ok ps => ps
  | .error _ => []

/-- Claim C3 witness: the concrete duplicate-name declaration raises the
hard ValueError. -/
theorem c3_witness :
    ∃ m, createFunction st0 dupIntSym =
      Except.error (TransErr.valueError m) :=
  c3_duplicate_param_error st0 dupIntSym c3Params rfl (by decide)

end GIScanner
